import Mathlib

/-!
Verification of api-analytics: retrieval, filter compilation and export.

A shallow embedding of `server/api/lib/routes/routes.go` (the filter compiler
`buildDataFetchQuery`, the export encoders `buildRequestData` and
`buildRequestDataCompact`, and the paginated reader `getUserRequests`).

Conventions of the embedding:
* `time.Time` is a natural number of time units counted from the zero time
  `time.Time{}`; `IsZero` is equality with `0`.
* a Go `any` is a `Value`, one constructor per dynamic type the code stores.
* `pgx.Rows` is the list of the outcomes of `rows.Scan`, one per row.
* the connection carries the tables, a script of statement failures and the
  list of statements issued so far.
* `log.LogToFile` writes to a side file only and is left out.
-/

namespace ApiAnalytics

/-! ## Values -/

/-- Go `time.Time`: units elapsed since the zero time `time.Time{}`. -/
abbrev Time := Nat

/-- Go `Time.IsZero`. -/
def Time.IsZero (t : Time) : Bool := t == 0

/-- Go `net.IP`, a slice of address bytes. -/
abbrev IP := List Nat

/-- Go `net.IPNet`. -/
structure IPNet where
  IP : IP
  Mask : List Nat
deriving DecidableEq, Repr

/-- The type `pgtype.CIDR`; `IPNet` is a pointer and `none` stands for `nil`. -/
structure CIDR where
  IPNet : Option IPNet
deriving DecidableEq, Repr

/-- A Go value of interface type `any`, tagged with its dynamic type. -/
inductive Value where
  | string (s : String)
  | int (i : Int)
  | int16 (i : Int)
  | time (t : Time)
  | ptrString (p : Option String)
  | cidr (c : CIDR)
  | bool (b : Bool)
deriving DecidableEq, Repr

/-! ## Filter compiler -/

/-- The validators of package `database` and the layout-based `Time.Format`
used by `buildDataFetchQuery`; neither is defined in the files at hand, so
they are parameters of the embedding. -/
structure Database where
  ValidDate : Time → Bool
  ValidIPAddress : String → Bool
  ValidLocation : String → Bool
  ValidStatus : Int → Bool
  ValidString : String → Bool
  /-- The call `t.Format("2006-01-02")`. -/
  Format : Time → String

/-- Go struct `DataFetchQueries`. -/
structure DataFetchQueries where
  compact : Bool
  date : Time
  dateFrom : Time
  dateTo : Time
  hostname : String
  ipAddress : String
  location : String
  status : Int
  userID : String
deriving DecidableEq, Repr

/-- The text written first by `buildDataFetchQuery`. -/
def selectRequests : String :=
  "SELECT ip_address, path, hostname, user_agent, method, response_time, status, location, user_id, created_at FROM requests WHERE api_key = $1"

/-- Go `buildDataFetchQuery`: the `strings.Builder` is the `String` component and
`arguments` the list component of the pair threaded through the blocks. -/
def buildDataFetchQuery (db : Database) (apiKey : String) (queries : DataFetchQueries) :
    String × List Value :=
  let query := selectRequests
  let arguments := [Value.string apiKey]
  -- Providing a single date takes priority over range with dateFrom and dateTo
  let (query, arguments) :=
    if !queries.date.IsZero && db.ValidDate queries.date then
      (query ++ (" and created_at >= $" ++ toString (arguments.length + 1)
          ++ " and created_at < date $" ++ toString (arguments.length + 2)
          ++ " + interval '1 days'"),
        arguments ++ [Value.string (db.Format queries.date), Value.string (db.Format queries.date)])
    else
      let (query, arguments) :=
        if !queries.dateFrom.IsZero && db.ValidDate queries.dateFrom then
          (query ++ (" and created_at >= $" ++ toString (arguments.length + 1)),
            arguments ++ [Value.string (db.Format queries.dateFrom)])
        else (query, arguments)
      if !queries.dateTo.IsZero && db.ValidDate queries.dateTo then
        (query ++ (" and created_at <= $" ++ toString (arguments.length + 1)),
          arguments ++ [Value.string (db.Format queries.dateTo)])
      else (query, arguments)
  let (query, arguments) :=
    if queries.ipAddress != "" && db.ValidIPAddress queries.ipAddress then
      (query ++ (" and ip_address = $" ++ toString (arguments.length + 1)),
        arguments ++ [Value.string queries.ipAddress])
    else (query, arguments)
  let (query, arguments) :=
    if queries.location != "" && db.ValidLocation queries.location then
      (query ++ (" and location = $" ++ toString (arguments.length + 1)),
        arguments ++ [Value.string queries.location])
    else (query, arguments)
  let (query, arguments) :=
    if queries.status != 0 && db.ValidStatus queries.status then
      (query ++ (" and status = $" ++ toString (arguments.length + 1)),
        arguments ++ [Value.int queries.status])
    else (query, arguments)
  let (query, arguments) :=
    if queries.hostname != "" && db.ValidString queries.hostname then
      (query ++ (" and hostname = $" ++ toString (arguments.length + 1)),
        arguments ++ [Value.string queries.hostname])
    else (query, arguments)
  let (query, arguments) :=
    if queries.userID != "" && db.ValidString queries.userID then
      (query ++ (" and user_id = $" ++ toString (arguments.length + 1)),
        arguments ++ [Value.string queries.userID])
    else (query, arguments)
  (query ++ " LIMIT 500000;", arguments)

/-- A sample validator set: dates up to 100000, dotted addresses of length 7,
two-letter locations, statuses 100..599, strings of at most 64 characters. -/
def sampleDatabase : Database where
  ValidDate := fun t => decide (t ≤ 100000)
  ValidIPAddress := fun s => s.length == 7
  ValidLocation := fun s => s.length == 2
  ValidStatus := fun n => decide (100 ≤ n ∧ n ≤ 599)
  ValidString := fun s => decide (s.length ≤ 64)
  Format := fun t => "day-" ++ toString t

/-- A filter set with no filter present. -/
def noFilters : DataFetchQueries :=
  { compact := false, date := 0, dateFrom := 0, dateTo := 0, hostname := "",
    ipAddress := "", location := "", status := 0, userID := "" }

/-- The eight filters of a filter set. -/
inductive Filter where
  | date | dateFrom | dateTo | ip | location | status | hostname | userID
deriving DecidableEq, Repr

/-- The filter is present: its field differs from the zero value of its type,
the first half of each guard of `buildDataFetchQuery`. -/
def Filter.present (q : DataFetchQueries) : Filter → Bool
  | .date => !q.date.IsZero
  | .dateFrom => !q.dateFrom.IsZero
  | .dateTo => !q.dateTo.IsZero
  | .ip => q.ipAddress != ""
  | .location => q.location != ""
  | .status => q.status != 0
  | .hostname => q.hostname != ""
  | .userID => q.userID != ""

/-- The validator of the filter passes its value, the second half of each guard. -/
def Filter.valid (db : Database) (q : DataFetchQueries) : Filter → Bool
  | .date => db.ValidDate q.date
  | .dateFrom => db.ValidDate q.dateFrom
  | .dateTo => db.ValidDate q.dateTo
  | .ip => db.ValidIPAddress q.ipAddress
  | .location => db.ValidLocation q.location
  | .status => db.ValidStatus q.status
  | .hostname => db.ValidString q.hostname
  | .userID => db.ValidString q.userID

/-- The filter is accepted: present and valid. -/
def Filter.accepted (db : Database) (q : DataFetchQueries) (f : Filter) : Bool :=
  f.present q && f.valid db q

/-- The filter set with one filter made absent. -/
def Filter.clear (q : DataFetchQueries) : Filter → DataFetchQueries
  | .date => { q with date := 0 }
  | .dateFrom => { q with dateFrom := 0 }
  | .dateTo => { q with dateTo := 0 }
  | .ip => { q with ipAddress := "" }
  | .location => { q with location := "" }
  | .status => { q with status := 0 }
  | .hostname => { q with hostname := "" }
  | .userID => { q with userID := "" }

/-- All eight filters, in the order the compiler visits them. -/
def Filter.all : List Filter :=
  [.date, .dateFrom, .dateTo, .ip, .location, .status, .hostname, .userID]

/-- Number of accepted filters among the eight of the filter set. -/
def acceptedFilterCount (db : Database) (q : DataFetchQueries) : Nat :=
  (Filter.all.filter (Filter.accepted db q)).length

/-- The parameters bound after the credential: the date's text twice for an
accepted exact date, otherwise one parameter for each accepted range bound;
then one parameter for each accepted ip, location, status, hostname and userID
filter. -/
def boundParameters (db : Database) (q : DataFetchQueries) : List Value :=
  (if Filter.accepted db q .date then
      [Value.string (db.Format q.date), Value.string (db.Format q.date)]
    else
      (if Filter.accepted db q .dateFrom then [Value.string (db.Format q.dateFrom)] else [])
        ++ (if Filter.accepted db q .dateTo then [Value.string (db.Format q.dateTo)] else []))
    ++ (if Filter.accepted db q .ip then [Value.string q.ipAddress] else [])
    ++ (if Filter.accepted db q .location then [Value.string q.location] else [])
    ++ (if Filter.accepted db q .status then [Value.int q.status] else [])
    ++ (if Filter.accepted db q .hostname then [Value.string q.hostname] else [])
    ++ (if Filter.accepted db q .userID then [Value.string q.userID] else [])

/-- Character codes of a text with the ASCII capitals lowered, the form in
which SQL keywords are compared. -/
def lowerCodes (s : String) : List Nat :=
  s.data.map fun c => if 65 ≤ c.toNat ∧ c.toNat ≤ 90 then c.toNat + 32 else c.toNat

/-- Number of positions of `s` at which `pat` starts. -/
def countFrom (pat : List Nat) : List Nat → Nat
  | [] => 0
  | c :: s => (if pat.isPrefixOf (c :: s) then 1 else 0) + countFrom pat s

/-- Number of occurrences of the text `pat` in `s`, letter case ignored. -/
def occurrences (pat s : String) : Nat :=
  countFrom (lowerCodes pat) (lowerCodes s)

/-- One bound predicate of a compiled statement: the text before its
placeholder, the value bound to the placeholder, and the text after it. -/
structure Segment where
  pre : String
  value : Value
  post : String
deriving DecidableEq, Repr

/-- The time predicates of a filter set: the two date predicates of an
accepted exact date, otherwise the accepted range bounds. -/
def timePredicates (db : Database) (q : DataFetchQueries) : List Segment :=
  if Filter.accepted db q .date then
    [⟨" and created_at >= $", Value.string (db.Format q.date), ""⟩,
      ⟨" and created_at < date $", Value.string (db.Format q.date), " + interval '1 days'"⟩]
  else
    (if Filter.accepted db q .dateFrom then
        [⟨" and created_at >= $", Value.string (db.Format q.dateFrom), ""⟩] else [])
      ++ (if Filter.accepted db q .dateTo then
        [⟨" and created_at <= $", Value.string (db.Format q.dateTo), ""⟩] else [])

/-- The equality predicates of a filter set: those of the accepted ip,
location, status, hostname and userID filters, in this order. -/
def equalityPredicates (db : Database) (q : DataFetchQueries) : List Segment :=
  (if Filter.accepted db q .ip then
      [⟨" and ip_address = $", Value.string q.ipAddress, ""⟩] else [])
    ++ (if Filter.accepted db q .location then
      [⟨" and location = $", Value.string q.location, ""⟩] else [])
    ++ (if Filter.accepted db q .status then
      [⟨" and status = $", Value.int q.status, ""⟩] else [])
    ++ (if Filter.accepted db q .hostname then
      [⟨" and hostname = $", Value.string q.hostname, ""⟩] else [])
    ++ (if Filter.accepted db q .userID then
      [⟨" and user_id = $", Value.string q.userID, ""⟩] else [])

/-- The predicates of a filter set in the order they are compiled. -/
def segments (db : Database) (q : DataFetchQueries) : List Segment :=
  timePredicates db q ++ equalityPredicates db q

/-- Text around the placeholder of a predicate. -/
def Segment.shape (s : Segment) : String × String := (s.pre, s.post)

/-- The texts around a placeholder that the compiler can write. -/
def knownShapes : List (String × String) :=
  [(" and created_at >= $", ""), (" and created_at < date $", " + interval '1 days'"),
    (" and created_at <= $", ""), (" and ip_address = $", ""), (" and location = $", ""),
    (" and status = $", ""), (" and hostname = $", ""), (" and user_id = $", "")]

/-- Text of a list of predicates whose placeholders are numbered upwards from
`n`. -/
def render : Nat → List Segment → String
  | _, [] => ""
  | n, s :: rest => s.pre ++ toString n ++ s.post ++ render (n + 1) rest

/-- One guarded block of the compiler applied to the builder state: when the
flag holds, the predicate text and the next placeholder number are written and
the value is appended. -/
def step (flag : Bool) (pre : String) (v : Value) (st : String × List Value) :
    String × List Value :=
  if flag then (st.1 ++ (pre ++ toString (st.2.length + 1)), st.2 ++ [v]) else st

/-- The date blocks of the compiler applied to the builder state. -/
def timeBlock (db : Database) (q : DataFetchQueries) (st : String × List Value) :
    String × List Value :=
  if Filter.accepted db q .date then
    (st.1 ++ (" and created_at >= $" ++ toString (st.2.length + 1)
        ++ " and created_at < date $" ++ toString (st.2.length + 2)
        ++ " + interval '1 days'"),
      st.2 ++ [Value.string (db.Format q.date), Value.string (db.Format q.date)])
  else
    step (Filter.accepted db q .dateTo) " and created_at <= $" (Value.string (db.Format q.dateTo))
      (step (Filter.accepted db q .dateFrom) " and created_at >= $"
        (Value.string (db.Format q.dateFrom)) st)

/-- The builder state after the predicates `segs` have been written. -/
def written (apiKey : String) (segs : List Segment) : String × List Value :=
  (selectRequests ++ render 2 segs, Value.string apiKey :: segs.map Segment.value)

/-! ## Export encoder -/

/-- Go struct `PublicRequestRow`, the scan target; a `*string` is an
`Option String` with `none` for `nil`. The `int16` fields are copied only. -/
structure PublicRequestRow where
  Hostname : Option String
  IPAddress : CIDR
  Path : String
  UserAgent : Option String
  Method : Int
  Status : Int
  ResponseTime : Int
  Location : Option String
  UserID : Option String
  CreatedAt : Time
deriving DecidableEq, Repr

/-- Go struct `PublicRequestData`, a record of the verbose export. -/
structure PublicRequestData where
  Hostname : String
  IPAddress : String
  Path : String
  UserAgent : String
  Method : Int
  Status : Int
  ResponseTime : Int
  Location : String
  UserID : String
  CreatedAt : Time
deriving DecidableEq, Repr

/-- Outcome of one `rows.Next()` followed by `rows.Scan(...)`: the scanned
row, or the scan error. -/
abbrev ScanResult := Except String PublicRequestRow

/-- A result set `pgx.Rows`, read front to back. -/
abbrev Rows := List ScanResult

/-- A byte string. -/
abbrev Bytes := List Nat

/-- Library functions the handlers call: `net.IP.String`, `json.Marshal`, and
the `Write` and `Close` of a gzip writer (each returning the buffer contents
or an error). They are parameters of the embedding. -/
structure Lib where
  ipString : IP → String
  jsonMarshal : List (List Value) → Except String Bytes
  gzipWrite : Bytes → Except String Bytes
  gzipClose : Bytes → Except String Bytes

/-- Go `getNullableString`. -/
def getNullableString (value : Option String) : String :=
  match value with
  | none => ""
  | some v => v

/-- The column names `cols` that `getData` and `getUserRequests` put first. -/
def columnNames : List String :=
  ["ip_address", "path", "hostname", "user_agent", "method", "response_time", "status",
    "location", "user_id", "created_at"]

/-- The header row `cols`, a `[]any` of strings. -/
def cols : List Value := columnNames.map Value.string

/-- Go `buildRequestDataCompact`: the loop over `rows` is a left fold whose
accumulator is `requests`. -/
def buildRequestDataCompact (rows : Rows) (cols : List Value) : List (List Value) :=
  rows.foldl (fun requests scan =>
    match scan with
    | .ok request =>
      requests ++ [[Value.cidr request.IPAddress, Value.string request.Path,
        Value.ptrString request.Hostname, Value.ptrString request.UserAgent,
        Value.int16 request.Method, Value.int16 request.ResponseTime,
        Value.int16 request.Status, Value.ptrString request.Location,
        Value.ptrString request.UserID, Value.time request.CreatedAt]]
    | .error _ => requests) [cols]

/-- Go `buildRequestData`. -/
def buildRequestData (lib : Lib) (rows : Rows) : List PublicRequestData :=
  rows.foldl (fun requests scan =>
    match scan with
    | .ok request =>
      let ip : String :=
        match request.IPAddress.IPNet with
        | some ipNet => lib.ipString ipNet.IP
        | none => ""
      let hostname := getNullableString request.Hostname
      let userAgent := getNullableString request.UserAgent
      let location := getNullableString request.Location
      let userID := getNullableString request.UserID
      requests ++ [{
        IPAddress := ip,
        Path := request.Path,
        Hostname := hostname,
        UserAgent := userAgent,
        Method := request.Method,
        Status := request.Status,
        ResponseTime := request.ResponseTime,
        Location := location,
        UserID := userID,
        CreatedAt := request.CreatedAt }]
    | .error _ => requests) []

/-- The row loop of `getUserRequests` (lines 125 to 142): it appends one
positional row per scanned row to `requests`, counts every row in `count`, and
leaves the result set once `count` reaches `maxRequests`. -/
def readRows (lib : Lib) (maxRequests : Nat) :
    Rows → List (List Value) → Nat → List (List Value) × Nat
  | [], requests, count => (requests, count)
  | scan :: rest, requests, count =>
    let requests :=
      match scan with
      | .ok request =>
        let ip : String :=
          match request.IPAddress.IPNet with
          | some ipNet => lib.ipString ipNet.IP
          | none => ""
        let hostname := getNullableString request.Hostname
        let userAgent := getNullableString request.UserAgent
        let location := getNullableString request.Location
        let userID := getNullableString request.UserID
        requests ++ [[Value.string ip, Value.string request.Path, Value.string hostname,
          Value.string userAgent, Value.int16 request.Method, Value.int16 request.ResponseTime,
          Value.int16 request.Status, Value.string location, Value.string userID,
          Value.time request.CreatedAt]]
      | .error _ => requests
    let count := count + 1
    if count ≥ maxRequests then (requests, count)
    else readRows lib maxRequests rest requests count

/-- The rows of a result set whose scan succeeded, in order. -/
def scanned (rows : Rows) : List PublicRequestRow :=
  rows.filterMap fun scan =>
    match scan with
    | .ok request => some request
    | .error _ => none

/-- Field of a scanned row by its JSON name (the struct tags of
`PublicRequestRow`), as the Go value stored in it. -/
def PublicRequestRow.field (r : PublicRequestRow) (name : String) : Option Value :=
  if name = "hostname" then some (Value.ptrString r.Hostname)
  else if name = "ip_address" then some (Value.cidr r.IPAddress)
  else if name = "path" then some (Value.string r.Path)
  else if name = "user_agent" then some (Value.ptrString r.UserAgent)
  else if name = "method" then some (Value.int16 r.Method)
  else if name = "status" then some (Value.int16 r.Status)
  else if name = "response_time" then some (Value.int16 r.ResponseTime)
  else if name = "location" then some (Value.ptrString r.Location)
  else if name = "user_id" then some (Value.ptrString r.UserID)
  else if name = "created_at" then some (Value.time r.CreatedAt)
  else none

/-- Field of a verbose record by its JSON name (the struct tags of
`PublicRequestData`). -/
def PublicRequestData.field (d : PublicRequestData) (name : String) : Option Value :=
  if name = "hostname" then some (Value.string d.Hostname)
  else if name = "ip_address" then some (Value.string d.IPAddress)
  else if name = "path" then some (Value.string d.Path)
  else if name = "user_agent" then some (Value.string d.UserAgent)
  else if name = "method" then some (Value.int16 d.Method)
  else if name = "status" then some (Value.int16 d.Status)
  else if name = "response_time" then some (Value.int16 d.ResponseTime)
  else if name = "location" then some (Value.string d.Location)
  else if name = "user_id" then some (Value.string d.UserID)
  else if name = "created_at" then some (Value.time d.CreatedAt)
  else none

/-- A JSON value as `encoding/json` writes the values the exports hold: a nil
pointer is `null`, a string or a non-nil `*string` is a JSON string; the
object written for a `pgtype.CIDR` is kept as the address it is built from. -/
inductive Json where
  | null
  | string (s : String)
  | number (i : Int)
  | time (t : Time)
  | cidr (c : CIDR)
  | bool (b : Bool)
deriving DecidableEq, Repr

/-- JSON form of a Go value of the exports. -/
def Value.json : Value → Json
  | .string s => .string s
  | .int i => .number i
  | .int16 i => .number i
  | .time t => .time t
  | .ptrString none => .null
  | .ptrString (some s) => .string s
  | .cidr c => .cidr c
  | .bool b => .bool b

/-- Reading a compact export back: every row after the header becomes the
record that maps each column name of the header to the JSON value at the
same position. -/
def decodeCompact (out : List (List Value)) : List (List (String × Json)) :=
  match out with
  | [] => []
  | header :: rows =>
    rows.map fun row =>
      (header.zip row).filterMap fun cell =>
        match cell.1 with
        | .string name => some (name, cell.2.json)
        | _ => none

/-- Reading a verbose export back: every record maps each column name to the
JSON value of its field of that name. -/
def decodeVerbose (out : List PublicRequestData) : List (List (String × Json)) :=
  out.map fun d =>
    columnNames.filterMap fun name => (d.field name).map fun v => (name, v.json)

/-- A sample of the library functions: dotted decimal addresses, a marshaller
that rejects a time beyond 9999 units (as `Time.MarshalJSON` rejects a year
beyond 9999) and otherwise returns the cell count of each row, and a gzip
writer that stores its input. -/
def sampleLib : Lib where
  ipString := fun ip => ".".intercalate (ip.map toString)
  jsonMarshal := fun data =>
    if data.any (fun row => row.any fun v =>
        match v with
        | .time t => decide (9999 < t)
        | _ => false)
    then .error "Time.MarshalJSON: year outside of range [0,9999]"
    else .ok (data.map List.length)
  gzipWrite := fun body => .ok body
  gzipClose := fun buffer => .ok (31 :: 139 :: buffer)

/-! ## Store, connection and response -/

/-- A row of table `users`: the columns written by `genAPIKey`. -/
structure UserRow where
  UserID : String
  APIKey : String
  CreatedAt : Time
  LastAccessed : Time
deriving DecidableEq, Repr

/-- A row of table `requests`: the owning credential and the ten columns the
retrieval statements select. -/
structure RequestRow where
  APIKey : String
  request : PublicRequestRow
deriving DecidableEq, Repr

/-- Go struct `database.MonitorRow`, a row of table `monitor`. -/
structure MonitorRow where
  APIKey : String
  URL : String
  Secure : Bool
  Ping : Bool
  CreatedAt : Time
deriving DecidableEq, Repr

/-- Go struct `database.PingsRow`, a row of table `pings`. -/
structure PingsRow where
  APIKey : String
  URL : String
  ResponseTime : Int
  Status : Int
  CreatedAt : Time
deriving DecidableEq, Repr

/-- The four tables. -/
structure Store where
  users : List UserRow
  requests : List RequestRow
  monitor : List MonitorRow
  pings : List PingsRow
deriving DecidableEq, Repr

/-- A statement sent over the connection: its text and its arguments. -/
structure Statement where
  query : String
  args : List Value
deriving DecidableEq, Repr

/-- A connection `*pgx.Conn`: the tables behind it, the outcome scripted for
each coming statement (`true`: the statement fails and changes nothing; an
exhausted script means success), the statements sent so far, and the value of
`NOW()`. The last field scripts, for each coming failure of a statement run
with `conn.Query`, how pgx v5 reports it: `none` (also when the script is
exhausted), `conn.Query` returns the error; `some k`, the failure is raised
while the statement runs, so that `conn.Query` returns no error, `rows.Next()`
delivers `k` rows and then `false`, and the error is held by `rows.Err()`. A
failure of `QueryRow(..).Scan` or of `Exec` is always returned by the call. -/
structure Conn where
  store : Store
  failures : List Bool
  issued : List Statement
  now : Time
  rowsErr : List (Option Nat) := []
deriving DecidableEq, Repr

/-- Sends one statement: records it, consumes one scripted outcome and tells
whether the statement failed. -/
def Conn.send (conn : Conn) (query : String) (args : List Value) : Bool × Conn :=
  (conn.failures.headD false,
    { conn with issued := conn.issued ++ [{ query := query, args := args }],
                failures := conn.failures.tail })

/-- The clause `ORDER BY created_at` on request rows. -/
def orderByCreatedAt (rows : List RequestRow) : List RequestRow :=
  rows.insertionSort fun a b => a.request.CreatedAt ≤ b.request.CreatedAt

/-- Text of the lookup of a credential by owner identifier. -/
def apiKeyQuery : String := "SELECT api_key FROM users WHERE user_id = $1;"

/-- The call `conn.QueryRow(ctx, query, userID).Scan(&apiKey)` of the
credential lookup: an error when the statement fails or selects no row. -/
def Conn.queryApiKey (conn : Conn) (userID : String) : Except String String × Conn :=
  let (failed, conn) := conn.send apiKeyQuery [Value.string userID]
  if failed then (.error "query failed", conn)
  else
    match conn.store.users.find? fun u => u.UserID == userID with
    | some u => (.ok u.APIKey, conn)
    | none => (.error "no rows in result set", conn)

/-- Text of the page statement of `getUserRequests`. -/
def pageQuery : String :=
  "SELECT ip_address, path, hostname, user_agent, method, response_time, status, location, user_id, created_at FROM requests WHERE api_key = $1 AND created_at >= $2 ORDER BY created_at LIMIT $3;"

/-- The call `conn.Query(ctx, query, apiKey, pageMarker, pageSize)` of the page
statement with the rows `rows.Next()` delivers afterwards: the credential's
rows at or after the marker, ordered by `created_at`, at most `pageSize` of
them. A failure of the statement is either returned by `conn.Query`, or, when
it is raised while the statement runs, it cuts the rows short and is held by
`rows.Err()` only; `getUserRequests` never reads `rows.Err()`, so in that case
its loop sees rows and no error. -/
def Conn.queryPage (conn : Conn) (apiKey : String) (pageMarker : Time) (pageSize : Nat) :
    Except String Rows × Conn :=
  let (failed, conn) :=
    conn.send pageQuery [Value.string apiKey, Value.time pageMarker, Value.int pageSize]
  if failed then
    match conn.rowsErr.headD none with
    | none => (.error "query failed", { conn with rowsErr := conn.rowsErr.tail })
    | some k =>
      (.ok ((((orderByCreatedAt (conn.store.requests.filter fun r =>
          r.APIKey == apiKey && decide (pageMarker ≤ r.request.CreatedAt))).take pageSize).map
            fun r => Except.ok r.request).take k),
        { conn with rowsErr := conn.rowsErr.tail })
  else
    (.ok (((orderByCreatedAt (conn.store.requests.filter fun r =>
        r.APIKey == apiKey && decide (pageMarker ≤ r.request.CreatedAt))).take pageSize).map
          fun r => Except.ok r.request), conn)

/-- Text of the statement of `updateLastAccessed`. -/
def updateLastAccessedQuery : String :=
  "UPDATE users SET last_accessed = NOW() WHERE api_key = $1;"

/-- Go `updateLastAccessed`: the returned error, if any, and the connection. -/
def updateLastAccessed (conn : Conn) (apiKey : String) : Option String × Conn :=
  let (failed, conn) := conn.send updateLastAccessedQuery [Value.string apiKey]
  if failed then (some "exec failed", conn)
  else
    (none, { conn with store := { conn.store with users := conn.store.users.map fun u =>
      if u.APIKey == apiKey then { u with LastAccessed := conn.now } else u } })

/-- Go `compressJSON`. -/
def compressJSON (lib : Lib) (data : List (List Value)) : Except String Bytes :=
  match lib.jsonMarshal data with
  | .error err => .error err
  | .ok body =>
    match lib.gzipWrite body with
    | .error err => .error err
    | .ok buffer =>
      match lib.gzipClose buffer with
      | .error err => .error err
      | .ok buffer => .ok buffer

/-- Go `http.StatusOK`. -/
def StatusOK : Nat := 200

/-- Go `http.StatusBadRequest`. -/
def StatusBadRequest : Nat := 400

/-- Go `http.StatusInternalServerError`. -/
def StatusInternalServerError : Nat := 500

/-- A response body: a `gin.H` with the keys `status` and `message`, or raw
data of a content type. -/
inductive Body where
  | h (status : Nat) (message : String)
  | data (contentType : String) (bytes : Bytes)
deriving DecidableEq, Repr

/-- One write to the response: the HTTP code passed and the body. -/
structure Response where
  code : Nat
  body : Body
deriving DecidableEq, Repr

/-- The part of a `*gin.Context` the handlers write: response headers and the
writes made, oldest first. -/
structure Context where
  headers : List (String × String)
  writes : List Response
deriving DecidableEq, Repr

/-- The call `c.JSON(code, gin.H{"status": status, "message": message})`. -/
def Context.JSON (c : Context) (code : Nat) (status : Nat) (message : String) : Context :=
  { c with writes := c.writes ++ [{ code := code, body := .h status message }] }

/-- The call `c.Data(code, contentType, data)`. -/
def Context.Data (c : Context) (code : Nat) (contentType : String) (data : Bytes) : Context :=
  { c with writes := c.writes ++ [{ code := code, body := .data contentType data }] }

/-- The call `c.Writer.Header().Set(key, value)`. -/
def Context.SetHeader (c : Context) (key value : String) : Context :=
  { c with headers := (c.headers.filter fun kv => kv.1 != key) ++ [(key, value)] }

/-- HTTP status of the response: the code of the first write, which sends the
status line. -/
def Context.status (c : Context) : Option Nat :=
  c.writes.head?.map fun w => w.code

/-- How the page loop of `getUserRequests` ends. -/
inductive PageLoop where
  | done (requests : List (List Value)) (conn : Conn)
  | queryError (conn : Conn)
  | panicked (conn : Conn)
  | outOfFuel
deriving DecidableEq, Repr

/-- The page loop of `getUserRequests` (lines 111 to 153), one iteration per
unit of `fuel`. A failed type assertion or index on the last row is a panic. -/
def pageLoop (lib : Lib) (pageSize maxRequests : Nat) (apiKey : String) :
    Nat → Conn → Time → List (List Value) → PageLoop
  | 0, _, _, _ => .outOfFuel
  | fuel + 1, conn, pageMarker, requests =>
    match conn.queryPage apiKey pageMarker pageSize with
    | (.error _, conn) => .queryError conn
    | (.ok rows, conn) =>
      let (requests, count) := readRows lib maxRequests rows requests 0
      -- If haven't reached page size, there are no more rows to read
      if count ≤ pageSize ∨ count ≥ maxRequests then .done requests conn
      else
        -- Save the final row's timestamp to know where next page begins
        let lastIdx := requests.length - 1
        match requests[lastIdx]? with
        | none => .panicked conn
        | some last =>
          match last[last.length - 1]? with
          | some (.time lastTimestamp) =>
            pageLoop lib pageSize maxRequests apiKey fuel conn lastTimestamp requests
          | _ => .panicked conn

/-- How a handler ends: it returns, it panics, or the embedding ran out of
loop fuel. -/
inductive Outcome where
  | returned (c : Context) (conn : Conn)
  | panicked (c : Context) (conn : Conn)
  | outOfFuel
deriving DecidableEq, Repr

/-- Go `getUserRequests`. `conn` is the connection `database.NewConnection()`
returns, `pageSize` the constant `500_000` of the source and `fuel` bounds the
iterations of the page loop. -/
def getUserRequests (lib : Lib) (fuel : Nat) (pageSize : Nat) (userID : String) (c : Context)
    (conn : Conn) : Outcome :=
  if userID = "" then
    .returned (c.JSON StatusBadRequest StatusBadRequest "Invalid user ID.") conn
  else
    -- Fetch API key corresponding with user_id
    match conn.queryApiKey userID with
    | (.error _, conn) =>
      .returned (c.JSON StatusBadRequest StatusBadRequest "Invalid user ID.") conn
    | (.ok apiKey, conn) =>
      let requests := [cols]
      let maxRequests := pageSize -- Temporary limit to prevent memory issues
      let pageMarker : Time := 0 -- Start with min time to capture first page
      match pageLoop lib pageSize maxRequests apiKey fuel conn pageMarker requests with
      | .outOfFuel => .outOfFuel
      | .panicked conn => .panicked c conn
      | .queryError conn =>
        .returned (c.JSON StatusBadRequest StatusBadRequest "Invalid user ID.") conn
      | .done requests conn =>
        match compressJSON lib requests with
        | .error _ =>
          .returned (c.JSON StatusBadRequest StatusInternalServerError "Compression failed.") conn
        | .ok gzipOutput =>
          -- Return API request data
          let c := c.SetHeader "Accept-Encoding" "gzip"
          let c := c.SetHeader "Content-Encoding" "gzip"
          let c := c.SetHeader "Content-Type" "application/json"
          let c := c.Data StatusOK "gzip" gzipOutput
          -- Record access
          match updateLastAccessed conn apiKey with
          | (some _, conn) =>
            .returned (c.JSON StatusBadRequest StatusBadRequest "Invalid user ID.") conn
          | (none, conn) => .returned c conn

/-- Number of page statements among the statements sent. -/
def pageQueries (conn : Conn) : Nat :=
  (conn.issued.filter fun s => s.query == pageQuery).length

/-- The single unpaged query of a credential: all its rows ordered by
`created_at`. -/
def unpagedQuery (store : Store) (apiKey : String) : List PublicRequestRow :=
  (orderByCreatedAt (store.requests.filter fun r => r.APIKey == apiKey)).map fun r => r.request

/-- The positional rows of scanned records: for each record the fields of its
verbose form, in column order. -/
def positionalRows (lib : Lib) (rs : List PublicRequestRow) : List (List Value) :=
  (buildRequestData lib (rs.map Except.ok)).map fun d => columnNames.filterMap d.field

/-- A stored row whose hostname, user agent, location and user identifier are
NULL and whose client address is 1.2.3.4. -/
def rowWithNulls : PublicRequestRow :=
  { Hostname := none, IPAddress := ⟨some ⟨[1, 2, 3, 4], [255, 255, 255, 255]⟩⟩, Path := "/v1/items",
    UserAgent := none, Method := 0, Status := 200, ResponseTime := 12, Location := none,
    UserID := none, CreatedAt := 1700 }

/-- A request row of credential `k` created at time `t`. -/
def requestAt (t : Time) : RequestRow :=
  { APIKey := "k", request := { rowWithNulls with CreatedAt := t } }

/-- A connection to a store with one account (owner `u1`, credential `k`) and
the given request rows; no statement is scripted to fail. -/
def sampleConn (requests : List RequestRow) : Conn :=
  { store := { users := [{ UserID := "u1", APIKey := "k", CreatedAt := 1, LastAccessed := 1 }],
               requests := requests, monitor := [], pings := [] },
    failures := [], issued := [], now := 5000 }

/-- A context nothing has been written to. -/
def emptyContext : Context := { headers := [], writes := [] }

/-- Requests collected by a page loop that ended normally. -/
def PageLoop.requests : PageLoop → Option (List (List Value))
  | .done requests _ => some requests
  | _ => none

/-- Connection left by a page loop that ended normally. -/
def PageLoop.conn : PageLoop → Option Conn
  | .done _ conn => some conn
  | _ => none

/-- Context of a handler that returned. -/
def Outcome.context : Outcome → Option Context
  | .returned c _ => some c
  | _ => none

/-! ## Account purge -/

/-- Text of the statement of `deleteUserRequests`. -/
def deleteRequestsQuery : String := "DELETE FROM requests WHERE api_key = $1;"

/-- Text of the statement of `deleteUserAccount`. -/
def deleteUsersQuery : String := "DELETE FROM users WHERE api_key = $1;"

/-- Text of the statement of `deleteUserMonitors`. -/
def deleteMonitorsQuery : String := "DELETE FROM monitor WHERE api_key = $1;"

/-- Text of the statement of `deleteUserPings`. -/
def deletePingsQuery : String := "DELETE FROM pings WHERE api_key = $1;"

/-- Go `deleteUserRequests`: the returned error, if any, the context and the
connection. -/
def deleteUserRequests (apiKey : String) (c : Context) (conn : Conn) :
    Option String × Context × Conn :=
  -- Delete all user's API request data
  let (failed, conn) := conn.send deleteRequestsQuery [Value.string apiKey]
  if failed then
    (some "exec failed", c.JSON StatusBadRequest StatusBadRequest "Invalid API key.", conn)
  else
    (none, c, { conn with store := { conn.store with
      requests := conn.store.requests.filter fun r => r.APIKey != apiKey } })

/-- Go `deleteUserAccount`. -/
def deleteUserAccount (apiKey : String) (c : Context) (conn : Conn) :
    Option String × Context × Conn :=
  -- Delete user account record
  let (failed, conn) := conn.send deleteUsersQuery [Value.string apiKey]
  if failed then
    (some "exec failed", c.JSON StatusBadRequest StatusBadRequest "Invalid API key.", conn)
  else
    (none, c, { conn with store := { conn.store with
      users := conn.store.users.filter fun u => u.APIKey != apiKey } })

/-- Go `deleteUserMonitors`. -/
def deleteUserMonitors (apiKey : String) (c : Context) (conn : Conn) :
    Option String × Context × Conn :=
  -- Delete all user's monitored urls
  let (failed, conn) := conn.send deleteMonitorsQuery [Value.string apiKey]
  if failed then
    (some "exec failed", c.JSON StatusBadRequest StatusBadRequest "Invalid API key.", conn)
  else
    (none, c, { conn with store := { conn.store with
      monitor := conn.store.monitor.filter fun m => m.APIKey != apiKey } })

/-- Go `deleteUserPings`. -/
def deleteUserPings (apiKey : String) (c : Context) (conn : Conn) :
    Option String × Context × Conn :=
  -- Delete all user's recorded pings to all monitored urls
  let (failed, conn) := conn.send deletePingsQuery [Value.string apiKey]
  if failed then
    (some "exec failed", c.JSON StatusBadRequest StatusBadRequest "Invalid API key.", conn)
  else
    (none, c, { conn with store := { conn.store with
      pings := conn.store.pings.filter fun p => p.APIKey != apiKey } })

/-- Go `deleteData`; `apiKey` is `c.Param("apiKey")`. The block for the empty
credential writes its response and, having no `return`, falls through. -/
def deleteData (apiKey : String) (c : Context) (conn : Conn) : Context × Conn :=
  let c :=
    if apiKey = "" then c.JSON StatusBadRequest StatusBadRequest "Invalid API key." else c
  match deleteUserRequests apiKey c conn with
  | (some _, c, conn) => (c, conn)
  | (none, c, conn) =>
    match deleteUserAccount apiKey c conn with
    | (some _, c, conn) => (c, conn)
    | (none, c, conn) =>
      match deleteUserMonitors apiKey c conn with
      | (some _, c, conn) => (c, conn)
      | (none, c, conn) =>
        match deleteUserPings apiKey c conn with
        | (some _, c, conn) => (c, conn)
        | (none, c, conn) =>
          -- Return API request data
          (c.JSON StatusOK StatusOK "Account data deleted successfully.", conn)

/-- The four delete statements of a purge, in the order of `deleteData`. -/
def purgeStatements (apiKey : String) : List Statement :=
  [{ query := deleteRequestsQuery, args := [Value.string apiKey] },
    { query := deleteUsersQuery, args := [Value.string apiKey] },
    { query := deleteMonitorsQuery, args := [Value.string apiKey] },
    { query := deletePingsQuery, args := [Value.string apiKey] }]

/-- The store after the first `n` deletions of a purge: requests, then users,
then monitor, then pings. -/
def purged (apiKey : String) (n : Nat) (store : Store) : Store :=
  { requests := if 1 ≤ n then store.requests.filter fun r => r.APIKey != apiKey
      else store.requests,
    users := if 2 ≤ n then store.users.filter fun u => u.APIKey != apiKey else store.users,
    monitor := if 3 ≤ n then store.monitor.filter fun m => m.APIKey != apiKey
      else store.monitor,
    pings := if 4 ≤ n then store.pings.filter fun p => p.APIKey != apiKey else store.pings }

/-- Position, among the next four statements, of the first one scripted to
fail. -/
def firstFailure (failures : List Bool) : Option Nat :=
  if failures.headD false then some 0
  else if failures.tail.headD false then some 1
  else if failures.tail.tail.headD false then some 2
  else if failures.tail.tail.tail.headD false then some 3
  else none

/-- Number of `updateLastAccessed` statements among the statements sent. -/
def updateStatements (conn : Conn) : Nat :=
  (conn.issued.filter fun s => s.query == updateLastAccessedQuery).length

/-- Connection a handler ended with, when it returned or panicked. -/
def Outcome.conn : Outcome → Option Conn
  | .returned _ conn => some conn
  | .panicked _ conn => some conn
  | .outOfFuel => none

/-- A store with two accounts, `k` and `other`, each owning one row of every
table. -/
def twoAccounts : Store :=
  { users := [{ UserID := "u1", APIKey := "k", CreatedAt := 1, LastAccessed := 1 },
              { UserID := "u2", APIKey := "other", CreatedAt := 2, LastAccessed := 2 }],
    requests := [requestAt 10, { requestAt 20 with APIKey := "other" }],
    monitor := [{ APIKey := "k", URL := "example.com", Secure := true, Ping := false,
                  CreatedAt := 3 },
                { APIKey := "other", URL := "example.org", Secure := true, Ping := true,
                  CreatedAt := 4 }],
    pings := [{ APIKey := "k", URL := "example.com", ResponseTime := 12, Status := 200,
                CreatedAt := 5 },
              { APIKey := "other", URL := "example.org", ResponseTime := 30, Status := 200,
                CreatedAt := 6 }] }

/-- Connection a page loop ended with, however it ended. -/
def PageLoop.lastConn : PageLoop → Option Conn
  | .done _ conn => some conn
  | .queryError conn => some conn
  | .panicked conn => some conn
  | .outOfFuel => none

/-- The run of `getUserRequests` ends on an error the handler sees before the
access is recorded: the credential lookup, `conn.Query` of a page statement or
the compression returns an error. -/
def failsBeforeUpdate (lib : Lib) (fuel pageSize : Nat) (userID : String) (conn : Conn) : Bool :=
  match conn.queryApiKey userID with
  | (.error _, _) => true
  | (.ok apiKey, conn) =>
    match pageLoop lib pageSize pageSize apiKey fuel conn 0 [cols] with
    | .queryError _ => true
    | .done requests _ =>
      match compressJSON lib requests with
      | .error _ => true
      | .ok _ => false
    | _ => false

/-! ## Monitor targets -/

/-- Go struct `Monitor`, the body of a request to `/monitor/add`. -/
structure Monitor where
  UserID : String
  URL : String
  Secure : Bool
  Ping : Bool
deriving DecidableEq, Repr

/-- The anonymous struct `body` of `deleteUserMonitor`. -/
structure DeleteMonitorBody where
  UserID : String
  URL : String
deriving DecidableEq, Repr

/-- Go `http.StatusCreated`. -/
def StatusCreated : Nat := 201

/-- Go `http.StatusConflict`. -/
def StatusConflict : Nat := 409

/-- Text of the statement counting the targets of a credential with a URL. -/
def monitorExistsQuery : String :=
  "SELECT count(*) FROM monitor WHERE api_key = $1 AND url = $2;"

/-- The call `QueryRow(...).Scan(&count)` of the duplicate check. -/
def Conn.queryMonitorExists (conn : Conn) (apiKey url : String) : Except String Nat × Conn :=
  let (failed, conn) := conn.send monitorExistsQuery [Value.string apiKey, Value.string url]
  if failed then (.error "query failed", conn)
  else
    (.ok (conn.store.monitor.filter fun m => m.APIKey == apiKey && m.URL == url).length, conn)

/-- Text of the statement counting the targets of a credential. -/
def monitorCountQuery : String := "SELECT count(*) FROM monitor WHERE api_key = $1;"

/-- The call `QueryRow(...).Scan(&monitorCount)` of the limit check. -/
def Conn.queryMonitorCount (conn : Conn) (apiKey : String) : Except String Nat × Conn :=
  let (failed, conn) := conn.send monitorCountQuery [Value.string apiKey]
  if failed then (.error "query failed", conn)
  else (.ok (conn.store.monitor.filter fun m => m.APIKey == apiKey).length, conn)

/-- Text of the insert statement of `addUserMonitor`. -/
def insertMonitorQuery : String :=
  "INSERT INTO monitor (api_key, url, secure, ping, created_at) VALUES ($1, $2, $3, $4, NOW())"

/-- The call `conn.Exec` of the insert statement: the returned error, if any,
and the connection. -/
def Conn.insertMonitor (conn : Conn) (apiKey : String) (monitor : Monitor) :
    Option String × Conn :=
  let (failed, conn) := conn.send insertMonitorQuery
    [Value.string apiKey, Value.string monitor.URL, Value.bool monitor.Secure,
      Value.bool monitor.Ping]
  if failed then (some "exec failed", conn)
  else
    (none, { conn with store := { conn.store with monitor := conn.store.monitor ++
      [{ APIKey := apiKey, URL := monitor.URL, Secure := monitor.Secure, Ping := monitor.Ping,
         CreatedAt := conn.now }] } })

/-- Go `addUserMonitor`; `body` is the outcome of `c.BindJSON(&monitor)`. -/
def addUserMonitor (body : Except String Monitor) (c : Context) (conn : Conn) : Context × Conn :=
  match body with
  | .error _ => (c.JSON StatusBadRequest StatusBadRequest "Invalid request body.", conn)
  | .ok monitor =>
    if monitor.UserID = "" then
      (c.JSON StatusBadRequest StatusBadRequest "User ID required.", conn)
    else
      -- Get API key from user ID
      match conn.queryApiKey monitor.UserID with
      | (.error _, conn) => (c.JSON StatusBadRequest StatusBadRequest "Invalid data.", conn)
      | (.ok apiKey, conn) =>
        -- Check if monitor already exists
        match conn.queryMonitorExists apiKey monitor.URL with
        | (.error _, conn) => (c.JSON StatusBadRequest StatusBadRequest "Invalid data.", conn)
        | (.ok count, conn) =>
          if count = 1 then
            (c.JSON StatusConflict StatusConflict "Monitor already exists.", conn)
          else
            -- Get monitor count
            match conn.queryMonitorCount apiKey with
            | (.error _, conn) =>
              (c.JSON StatusBadRequest StatusBadRequest "Invalid data.", conn)
            | (.ok monitorCount, conn) =>
              -- Check if existing monitors already at max limit
              if monitorCount ≥ 3 then
                (c.JSON StatusBadRequest StatusBadRequest "Monitor limit reached.", conn)
              else
                -- Insert new monitor into database
                match conn.insertMonitor apiKey monitor with
                | (some _, conn) =>
                  (c.JSON StatusBadRequest StatusBadRequest "Invalid data.", conn)
                | (none, conn) =>
                  -- Return success response
                  (c.JSON StatusCreated StatusCreated "New monitor created successfully.", conn)

/-- Text of the statement of `deleteMonitor`. -/
def deleteMonitorQuery : String := "DELETE FROM monitor WHERE api_key = $1 AND url = $2;"

/-- Go `deleteMonitor`. -/
def deleteMonitor (apiKey url : String) (c : Context) (conn : Conn) :
    Option String × Context × Conn :=
  -- Delete user's monitor to this specific url
  let (failed, conn) := conn.send deleteMonitorQuery [Value.string apiKey, Value.string url]
  if failed then
    (some "exec failed", c.JSON StatusBadRequest StatusBadRequest "Invalid data.", conn)
  else
    (none, c, { conn with store := { conn.store with
      monitor := conn.store.monitor.filter fun m => !(m.APIKey == apiKey && m.URL == url) } })

/-- Text of the statement of `deletePings`. -/
def deleteMonitorPingsQuery : String := "DELETE FROM pings WHERE api_key = $1 AND url = $2;"

/-- Go `deletePings`. -/
def deletePings (apiKey url : String) (c : Context) (conn : Conn) :
    Option String × Context × Conn :=
  -- Delete user's recorded pings to monitored url
  let (failed, conn) := conn.send deleteMonitorPingsQuery [Value.string apiKey, Value.string url]
  if failed then
    (some "exec failed", c.JSON StatusBadRequest StatusBadRequest "Invalid data.", conn)
  else
    (none, c, { conn with store := { conn.store with
      pings := conn.store.pings.filter fun p => !(p.APIKey == apiKey && p.URL == url) } })

/-- Go `deleteUserMonitor`; `body` is the outcome of `c.BindJSON(&body)`. -/
def deleteUserMonitor (body : Except String DeleteMonitorBody) (c : Context) (conn : Conn) :
    Context × Conn :=
  match body with
  | .error _ => (c.JSON StatusBadRequest StatusBadRequest "Invalid request body.", conn)
  | .ok body =>
    if body.UserID = "" then
      (c.JSON StatusBadRequest StatusBadRequest "User ID required.", conn)
    else
      -- Get API key from user ID
      match conn.queryApiKey body.UserID with
      | (.error _, conn) => (c.JSON StatusBadRequest StatusBadRequest "Invalid data.", conn)
      | (.ok apiKey, conn) =>
        -- Delete monitor from database
        match deleteMonitor apiKey body.URL c conn with
        | (some _, c, conn) => (c.JSON StatusBadRequest StatusBadRequest "Invalid data.", conn)
        | (none, c, conn) =>
          -- Delete recorded pings from database for this monitor
          match deletePings apiKey body.URL c conn with
          | (some _, c, conn) => (c.JSON StatusBadRequest StatusBadRequest "Invalid data.", conn)
          | (none, c, conn) =>
            -- Return success response
            (c.JSON StatusCreated StatusCreated "Monitor deleted successfully.", conn)

/-- A call of one of the two monitor handlers, with the outcome of binding its
request body. -/
inductive MonitorCall where
  | add (body : Except String Monitor)
  | delete (body : Except String DeleteMonitorBody)

/-- One call served on a fresh context; the connection state is what the next
call finds. -/
def MonitorCall.run (call : MonitorCall) (conn : Conn) : Conn :=
  match call with
  | .add body => (addUserMonitor body emptyContext conn).2
  | .delete body => (deleteUserMonitor body emptyContext conn).2

/-- A sequence of calls served one after the other. -/
def runMonitorCalls (calls : List MonitorCall) (conn : Conn) : Conn :=
  calls.foldl (fun conn call => call.run conn) conn

/-- Cardinality invariant: every credential has at most 3 monitor targets. -/
def monitorCap (store : Store) : Prop :=
  ∀ apiKey : String, (store.monitor.filter fun m => m.APIKey == apiKey).length ≤ 3

/-- Uniqueness invariant: no (credential, URL) pair occurs twice. -/
def monitorUnique (store : Store) : Prop :=
  (store.monitor.map fun m => (m.APIKey, m.URL)).Nodup

/-- None of the next `n` statements is scripted to fail. -/
def succeeds (n : Nat) (failures : List Bool) : Bool :=
  !(failures.take n).any id

/-- Three targets of credential `k`. -/
def threeTargets : List MonitorRow :=
  [{ APIKey := "k", URL := "a.example", Secure := true, Ping := false, CreatedAt := 1 },
    { APIKey := "k", URL := "b.example", Secure := true, Ping := false, CreatedAt := 2 },
    { APIKey := "k", URL := "c.example", Secure := false, Ping := true, CreatedAt := 3 }]

/-- A connection to a store with the account (`u1`, `k`) and the given monitor
targets. -/
def monitorConn (monitor : List MonitorRow) (failures : List Bool) : Conn :=
  { store := { users := [{ UserID := "u1", APIKey := "k", CreatedAt := 1, LastAccessed := 1 }],
               requests := [], monitor := monitor, pings := [] },
    failures := failures, issued := [], now := 5000 }

/-- Credential the users table gives for an owner identifier. -/
def lookupKey (store : Store) (userID : String) : Option String :=
  (store.users.find? fun u => u.UserID == userID).map fun u => u.APIKey

/-- The row `addUserMonitor` inserts for a request of a credential. -/
def newTarget (apiKey : String) (monitor : Monitor) (now : Time) : MonitorRow :=
  { APIKey := apiKey, URL := monitor.URL, Secure := monitor.Secure, Ping := monitor.Ping,
    CreatedAt := now }

/-- A sequence of calls for owner `u1`: three registrations, a repeated one,
a fourth URL, a deletion and a registration after it. -/
def sampleCalls : List MonitorCall :=
  [.add (.ok ⟨"u1", "a.example", true, false⟩), .add (.ok ⟨"u1", "a.example", true, false⟩),
    .add (.ok ⟨"u1", "b.example", true, false⟩), .add (.ok ⟨"u1", "c.example", false, true⟩),
    .add (.ok ⟨"u1", "d.example", true, false⟩), .delete (.ok ⟨"u1", "a.example"⟩),
    .add (.ok ⟨"u1", "d.example", true, false⟩), .add (.error "unexpected end of JSON input")]

/-! ## Uptime prober

In the prober the unit of `Time` is the nanosecond, the unit of
`time.Duration`. The row type `database.PingRow` of `monitor/main.go` is the
row of table `pings`, `PingsRow`. -/

/-- Go `time.Millisecond`. -/
def Millisecond : Nat := 1000000

/-- Go `time.Second`. -/
def Second : Nat := 1000 * Millisecond

/-- Go `time.Hour`. -/
def Hour : Nat := 3600 * Second

/-- Go `getURL`. -/
def getURL (domain : String) (secure : Bool) : String :=
  if secure then "https://" ++ domain else "http://" ++ domain

/-- Go `getMethod`. -/
def getMethod (ping : Bool) : String :=
  if ping then "HEAD" else "GET"

/-- The `http.Client` with the network behind it: `NewRequest method url` is
the error of `http.NewRequest`, if any; `Do method url` is the outcome of
`client.Do`, the status code of the response or the transport error, and the
time the call took. -/
structure Client where
  NewRequest : String → String → Option String
  Do : String → String → Except String Int × Nat

/-- Go `ping`, started at clock value `now`: status code, elapsed duration and
error, and the clock value at return. -/
def ping (client : Client) (now : Time) (domain : String) (secure : Bool) (ping : Bool) :
    (Int × Nat × Option String) × Time :=
  let url := getURL domain secure
  let method := getMethod ping
  match client.NewRequest method url with
  | some err => ((0, 0, some err), now)
  | none =>
    -- Make request
    let start := now
    match client.Do method url with
    | (.error err, took) => ((0, 0, some err), now + took)
    | (.ok statusCode, took) =>
      let elapsed := now + took - start
      ((statusCode, elapsed, none), now + took)

/-- The loop of `pingMonitored` over the targets: the pings collected and the
clock value after the last probe. -/
def collectPings (client : Client) (now : Time) (monitored : List MonitorRow) :
    List PingsRow × Time :=
  monitored.foldl (fun (state : List PingsRow × Time) m =>
    let ((status, elapsed, _), now) := ping client state.2 m.URL m.Secure m.Ping
    (state.1 ++ [{
      APIKey := m.APIKey,
      URL := m.URL,
      ResponseTime := Int.ofNat (elapsed / Millisecond),
      Status := status,
      CreatedAt := now }], now)) ([], now)

/-- The call `t.UTC().Format("2006-01-02T15:04:05-0700")`, a parameter of the
embedding. The layout has no fraction of a second. -/
structure Layout where
  timestamp : Time → String

/-- The time a timestamp text of the layout denotes: the time cut to the
whole second. -/
def truncateToSecond (t : Time) : Time := t / Second * Second

/-- How a run of the prober ends: `panic(err)` after a failed statement, or
normally. -/
inductive Run where
  | finished (db : Conn)
  | panicked (db : Conn)
deriving DecidableEq, Repr

/-- The text `uploadPings` builds. -/
def uploadPingsQuery (layout : Layout) (pings : List PingsRow) : String :=
  "INSERT INTO pings (api_key, url, response_time, status, created_at) VALUES"
    ++ String.join (pings.enum.map fun (i, ping) =>
        (if i > 0 then "," else "")
          ++ (" ('" ++ ping.APIKey ++ "', '" ++ ping.URL ++ "', " ++ toString ping.ResponseTime
              ++ ", " ++ toString ping.Status ++ ", '" ++ layout.timestamp ping.CreatedAt ++ "')"))
    ++ ";"

/-- Go `uploadPings`. The statement carries its values as text, so a ping is
stored with the time its timestamp text denotes; without pings the text ends in
`VALUES;`, which the store rejects. -/
def uploadPings (layout : Layout) (pings : List PingsRow) (db : Conn) : Run :=
  let (failed, db) := db.send (uploadPingsQuery layout pings) []
  if failed || pings.isEmpty then .panicked db
  else
    .finished { db with store := { db.store with
      pings := db.store.pings
        ++ pings.map (fun p => { p with CreatedAt := truncateToSecond p.CreatedAt }) } }

/-- The text `deleteOldPings` builds at clock value `now`. -/
def deleteOldPingsQuery (layout : Layout) (now : Time) : String :=
  "DELETE FROM pings WHERE created_at < '" ++ layout.timestamp (now - 60 * 24 * Hour) ++ "';"

/-- Go `deleteOldPings` at clock value `now`. -/
def deleteOldPings (layout : Layout) (now : Time) (db : Conn) : Run :=
  let (failed, db) := db.send (deleteOldPingsQuery layout now) []
  if failed then .panicked db
  else
    .finished { db with store := { db.store with
      pings := db.store.pings.filter (fun p =>
        !decide (p.CreatedAt < truncateToSecond (now - 60 * 24 * Hour))) } }

/-- Go `pingMonitored`, started at clock value `now`. -/
def pingMonitored (monitored : List MonitorRow) (client : Client) (layout : Layout) (now : Time)
    (db : Conn) : Run :=
  let (pings, now) := collectPings client now monitored
  match uploadPings layout pings db with
  | .panicked db => .panicked db
  | .finished db => deleteOldPings layout now db

/-- Connection a run of the prober ended with. -/
def Run.db : Run → Conn
  | .finished db => db
  | .panicked db => db

/-- A sample client: `down.example` cannot be reached, every other host
answers 200 after 25 milliseconds. -/
def sampleClient : Client where
  NewRequest := fun _ _ => none
  Do := fun _ url =>
    if url = "https://down.example" then (.error "dial tcp: i/o timeout", 2 * Second)
    else (.ok 200, 25 * Millisecond)

/-- A sample layout: the whole seconds of the time. -/
def sampleLayout : Layout where
  timestamp := fun t => toString (t / Second)

/-- A ping of credential `k` created at the given time. -/
def pingAt (t : Time) : PingsRow :=
  { APIKey := "k", URL := "a.example", ResponseTime := 25, Status := 200, CreatedAt := t }

/-- A connection to a store that holds the given pings only. -/
def pingsConn (pings : List PingsRow) (failures : List Bool) : Conn :=
  { store := { users := [], requests := [], monitor := [], pings := pings },
    failures := failures, issued := [], now := 0 }

/-- A connection to the one-account store with one request row on which the
credential lookup succeeds and the page statement fails while it runs: the
failure is held by `rows.Err()` and no row is delivered. -/
def failedPageConn : Conn :=
  { sampleConn [requestAt 10] with failures := [false, true], rowsErr := [some 0] }

/-- The rows the page statement selects for a marker: the credential's rows
at or after the marker in `created_at` order, cut at the page size. -/
def pageRows (store : Store) (apiKey : String) (pageMarker : Time) (pageSize : Nat) : Rows :=
  ((orderByCreatedAt (store.requests.filter fun r =>
      r.APIKey == apiKey && decide (pageMarker ≤ r.request.CreatedAt))).take pageSize).map
        fun r => Except.ok r.request

/-- The character is a decimal digit. -/
def digit (c : Char) : Bool := decide (48 ≤ c.toNat ∧ c.toNat ≤ 57)

/-- The number written by a list of decimal digits. -/
def numeral (ds : List Char) : Nat := ds.foldl (fun n c => 10 * n + (c.toNat - 48)) 0

/-- The placeholder numbers of a text in order of appearance: a placeholder is
a dollar sign (code 36) directly followed by a non-empty run of digits, and its
number is written by the longest such run. -/
def scan : List Char → List Nat
  | [] => []
  | c :: s =>
    if c.toNat = 36 ∧ s.takeWhile digit ≠ [] then numeral (s.takeWhile digit) :: scan s
    else scan s

/-- The numbers of the placeholders `$k` of a statement text, in order of
appearance. -/
def placeholders (text : String) : List Nat := scan text.data

/-- The value a filter binds: the formatted date for the three date filters,
the field itself for the others. -/
def Filter.value (db : Database) (q : DataFetchQueries) : Filter → Value
  | .date => Value.string (db.Format q.date)
  | .dateFrom => Value.string (db.Format q.dateFrom)
  | .dateTo => Value.string (db.Format q.dateTo)
  | .ip => Value.string q.ipAddress
  | .location => Value.string q.location
  | .status => Value.int q.status
  | .hostname => Value.string q.hostname
  | .userID => Value.string q.userID

/-- The predicates of a filter, each with one placeholder bound to the value of
the filter: two for the exact date, one for every other filter. -/
def Filter.predicates (db : Database) (q : DataFetchQueries) (f : Filter) : List Segment :=
  match f with
  | .date =>
    [⟨" and created_at >= $", f.value db q, ""⟩,
      ⟨" and created_at < date $", f.value db q, " + interval '1 days'"⟩]
  | .dateFrom => [⟨" and created_at >= $", f.value db q, ""⟩]
  | .dateTo => [⟨" and created_at <= $", f.value db q, ""⟩]
  | .ip => [⟨" and ip_address = $", f.value db q, ""⟩]
  | .location => [⟨" and location = $", f.value db q, ""⟩]
  | .status => [⟨" and status = $", f.value db q, ""⟩]
  | .hostname => [⟨" and hostname = $", f.value db q, ""⟩]
  | .userID => [⟨" and user_id = $", f.value db q, ""⟩]

/-- The filter takes part in the statement: it is accepted and, for a range
bound, the exact date is not accepted. -/
def Filter.compiled (db : Database) (q : DataFetchQueries) (f : Filter) : Bool :=
  Filter.accepted db q f && !((f == .dateFrom || f == .dateTo) && Filter.accepted db q .date)

/-- The filters taking part in the statement, in the fixed order date,
dateFrom, dateTo, ip, location, status, hostname, userID. -/
def compiledFilters (db : Database) (q : DataFetchQueries) : List Filter :=
  Filter.all.filter (Filter.compiled db q)

/-- The predicates of the filters taking part, filter after filter. -/
def filterPredicates (db : Database) (q : DataFetchQueries) : List Segment :=
  (compiledFilters db q).flatMap (Filter.predicates db q)

/-- The select text up to the dollar sign of the credential placeholder. -/
def selectHead : String :=
  "SELECT ip_address, path, hostname, user_agent, method, response_time, status, location, user_id, created_at FROM requests WHERE api_key = $"

/-- The texts around a placeholder allow to read it back: the text before ends
with the only dollar sign of the two and does not start with a digit, and the
text after does not start with a digit. -/
def shapeOk (pre post : String) : Bool :=
  (pre.data.getLast?.map Char.toNat == some 36)
    && pre.data.dropLast.all (fun x => x.toNat != 36)
    && pre.data.head?.all (fun x => !digit x)
    && post.data.all (fun x => x.toNat != 36)
    && post.data.head?.all (fun x => !digit x)

/-- A text that does not start with a digit. -/
def stops (l : List Char) : Prop := ∀ x, l.head? = some x → digit x = false

/-- A sample filter set with the date range, the status and the userID. -/
def sampleFilters : DataFetchQueries :=
  { noFilters with dateFrom := 3, dateTo := 9, status := 200, userID := "u" }

/-! ## Theorems: filter compiler -/

theorem buildDataFetchQuery_eq_steps (db : Database) (apiKey : String) (q : DataFetchQueries) :
    buildDataFetchQuery db apiKey q
      = ((step (Filter.accepted db q .userID) " and user_id = $" (Value.string q.userID)
          (step (Filter.accepted db q .hostname) " and hostname = $" (Value.string q.hostname)
          (step (Filter.accepted db q .status) " and status = $" (Value.int q.status)
          (step (Filter.accepted db q .location) " and location = $" (Value.string q.location)
          (step (Filter.accepted db q .ip) " and ip_address = $" (Value.string q.ipAddress)
          (timeBlock db q (selectRequests, [Value.string apiKey]))))))).1 ++ " LIMIT 500000;",
        (step (Filter.accepted db q .userID) " and user_id = $" (Value.string q.userID)
          (step (Filter.accepted db q .hostname) " and hostname = $" (Value.string q.hostname)
          (step (Filter.accepted db q .status) " and status = $" (Value.int q.status)
          (step (Filter.accepted db q .location) " and location = $" (Value.string q.location)
          (step (Filter.accepted db q .ip) " and ip_address = $" (Value.string q.ipAddress)
          (timeBlock db q (selectRequests, [Value.string apiKey]))))))).2) := by
  rfl

theorem render_append (n : Nat) (a b : List Segment) :
    render n (a ++ b) = render n a ++ render (n + a.length) b := by
  induction a generalizing n with
  | nil => simp [render]
  | cons s a ih =>
    have e : n + 1 + a.length = n + (a.length + 1) := by omega
    rw [List.cons_append, render, render, ih, List.length_cons, e]
    simp only [String.append_assoc]

theorem step_written (apiKey : String) (segs : List Segment) (flag : Bool) (pre : String)
    (v : Value) :
    step flag pre v (written apiKey segs)
      = written apiKey (segs ++ if flag then [⟨pre, v, ""⟩] else []) := by
  cases flag
  · simp [step]
  · simp only [step, written, if_true, render_append, render, List.map_append, List.map_cons,
      List.map_nil, List.length_cons, List.length_map, String.append_assoc, String.append_empty,
      List.cons_append]
    rw [show segs.length + 1 + 1 = 2 + segs.length by omega]

theorem timeBlock_written (db : Database) (q : DataFetchQueries) (apiKey : String) :
    timeBlock db q (written apiKey []) = written apiKey (timePredicates db q) := by
  unfold timeBlock timePredicates
  cases Filter.accepted db q .date
  · simp only [Bool.false_eq_true, if_false]
    rw [step_written, step_written, List.nil_append]
  · simp only [if_true, written, render, List.map_nil, List.map_cons, List.length_cons,
      List.length_nil, String.append_assoc, String.append_empty]
    rfl

theorem buildDataFetchQuery_eq_render (db : Database) (apiKey : String) (q : DataFetchQueries) :
    buildDataFetchQuery db apiKey q
      = (selectRequests ++ render 2 (segments db q) ++ " LIMIT 500000;",
          Value.string apiKey :: (segments db q).map Segment.value) := by
  have h0 : (selectRequests, [Value.string apiKey]) = written apiKey [] := by
    simp [written, render]
  rw [buildDataFetchQuery_eq_steps, h0, timeBlock_written, step_written, step_written,
    step_written, step_written, step_written]
  simp only [written, segments, equalityPredicates, List.append_assoc]

theorem render_shape (n : Nat) (a b : List Segment)
    (h : a.map Segment.shape = b.map Segment.shape) : render n a = render n b := by
  induction a generalizing b n with
  | nil =>
    cases b with
    | nil => rfl
    | cons t b => simp at h
  | cons s a ih =>
    cases b with
    | nil => simp at h
    | cons t b =>
      simp only [List.map_cons, List.cons.injEq, Segment.shape, Prod.mk.injEq] at h
      rw [render, render, ih _ _ h.2, h.1.1, h.1.2]

theorem segments_shape (db : Database) (q1 q2 : DataFetchQueries)
    (h : ∀ f : Filter, Filter.accepted db q1 f = Filter.accepted db q2 f) :
    (segments db q1).map Segment.shape = (segments db q2).map Segment.shape := by
  unfold segments timePredicates equalityPredicates
  rw [h .date, h .dateFrom, h .dateTo, h .ip, h .location, h .status, h .hostname, h .userID]
  cases Filter.accepted db q2 .date <;> cases Filter.accepted db q2 .dateFrom <;>
    cases Filter.accepted db q2 .dateTo <;> cases Filter.accepted db q2 .ip <;>
    cases Filter.accepted db q2 .location <;> cases Filter.accepted db q2 .status <;>
    cases Filter.accepted db q2 .hostname <;> cases Filter.accepted db q2 .userID <;> rfl

theorem mem_ite_singleton {α : Type} (c : Bool) (x s : α)
    (h : s ∈ (if c then [x] else [])) : s = x := by
  cases c
  · simp at h
  · simpa using h

theorem timePredicates_known (db : Database) (q : DataFetchQueries) :
    ∀ s ∈ timePredicates db q, s.shape ∈ knownShapes := by
  intro s hs
  unfold timePredicates at hs
  generalize Filter.accepted db q .date = b at hs
  cases b
  · simp only [Bool.false_eq_true, if_false, List.mem_append] at hs
    rcases hs with hs | hs
    · rw [mem_ite_singleton _ _ _ hs]; simp [Segment.shape, knownShapes]
    · rw [mem_ite_singleton _ _ _ hs]; simp [Segment.shape, knownShapes]
  · simp only [if_true, List.mem_cons, List.mem_singleton, List.not_mem_nil, or_false] at hs
    rcases hs with hs | hs
    · rw [hs]; simp [Segment.shape, knownShapes]
    · rw [hs]; simp [Segment.shape, knownShapes]

theorem equalityPredicates_known (db : Database) (q : DataFetchQueries) :
    ∀ s ∈ equalityPredicates db q,
      s.post = "" ∧ s.pre ∈ [" and ip_address = $", " and location = $", " and status = $",
        " and hostname = $", " and user_id = $"] := by
  intro s hs
  unfold equalityPredicates at hs
  simp only [List.mem_append] at hs
  rcases hs with (((hs | hs) | hs) | hs) | hs <;>
    (rw [mem_ite_singleton _ _ _ hs]; exact ⟨rfl, by simp⟩)

theorem segments_known (db : Database) (q : DataFetchQueries) :
    ∀ s ∈ segments db q, s.shape ∈ knownShapes := by
  intro s hs
  unfold segments at hs
  rcases List.mem_append.mp hs with hs | hs
  · exact timePredicates_known db q s hs
  · obtain ⟨h1, h2⟩ := equalityPredicates_known db q s hs
    unfold Segment.shape
    rw [h1]
    simp only [List.mem_cons, List.mem_singleton, List.not_mem_nil, or_false] at h2
    rcases h2 with h2 | h2 | h2 | h2 | h2 <;> (rw [h2]; decide)

theorem digitChar_code : ∀ m : Nat, m < 10 →
    48 ≤ (Nat.digitChar m).toNat ∧ (Nat.digitChar m).toNat ≤ 57 := by
  decide

theorem toDigitsCore_codes (fuel n : Nat) (ds : List Char)
    (hds : ∀ c ∈ ds, 48 ≤ c.toNat ∧ c.toNat ≤ 57) :
    ∀ c ∈ Nat.toDigitsCore 10 fuel n ds, 48 ≤ c.toNat ∧ c.toNat ≤ 57 := by
  induction fuel generalizing n ds with
  | zero => simpa [Nat.toDigitsCore] using hds
  | succ fuel ih =>
    have hd := digitChar_code (n % 10) (Nat.mod_lt n (by decide))
    have hcons : ∀ c ∈ Nat.digitChar (n % 10) :: ds, 48 ≤ c.toNat ∧ c.toNat ≤ 57 := by
      intro c hc
      rcases List.mem_cons.mp hc with hc | hc
      · rw [hc]; exact hd
      · exact hds c hc
    unfold Nat.toDigitsCore
    by_cases h0 : n / 10 = 0
    · simpa [h0] using hcons
    · simp only [h0, if_false]
      exact ih (n / 10) _ hcons

/-- The decimal numeral of a number consists of digits. -/
theorem toString_codes (n : Nat) : ∀ c ∈ (toString n).data, 48 ≤ c.toNat ∧ c.toNat ≤ 57 := by
  have h : (toString n).data = Nat.toDigitsCore 10 (n + 1) n [] := rfl
  rw [h]
  exact toDigitsCore_codes (n + 1) n [] (by simp)

theorem lowerCodes_append (a b : String) : lowerCodes (a ++ b) = lowerCodes a ++ lowerCodes b := by
  simp [lowerCodes, String.data_append]

theorem lowerCodes_toString (n : Nat) : 98 ∉ lowerCodes (toString n) := by
  intro h
  unfold lowerCodes at h
  obtain ⟨c, hc, hx⟩ := List.mem_map.mp h
  have := toString_codes n c hc
  split at hx <;> omega

theorem knownShapes_codes : ∀ p ∈ knownShapes, 98 ∉ lowerCodes p.1 ∧ 98 ∉ lowerCodes p.2 := by
  decide

theorem render_codes (n : Nat) (segs : List Segment)
    (h : ∀ s ∈ segs, s.shape ∈ knownShapes) : 98 ∉ lowerCodes (render n segs) := by
  induction segs generalizing n with
  | nil => simp [render, lowerCodes]
  | cons s segs ih =>
    have hs := knownShapes_codes _ (h s (List.mem_cons_self _ _))
    have hr := ih (n + 1) (fun t ht => h t (List.mem_cons_of_mem _ ht))
    rw [render, lowerCodes_append, lowerCodes_append, lowerCodes_append]
    simp only [List.mem_append, not_or]
    exact ⟨⟨⟨hs.1, lowerCodes_toString n⟩, hs.2⟩, hr⟩

theorem countFrom_eq_zero (pat s : List Nat) (x : Nat) (hx : x ∈ pat) (hs : x ∉ s) :
    countFrom pat s = 0 := by
  induction s with
  | nil => rfl
  | cons c s ih =>
    have hnot : pat.isPrefixOf (c :: s) = false := by
      cases hp : pat.isPrefixOf (c :: s)
      · rfl
      · rw [List.isPrefixOf_iff_prefix] at hp
        exact absurd (hp.subset hx) hs
    rw [countFrom, hnot, ih (fun h => hs (List.mem_cons_of_mem _ h))]
    rfl

/-- No compiled statement has the letter of code 98 in either case, so none
contains the words `order by`. -/
theorem buildDataFetchQuery_no_order_by (db : Database) (k : String) (q : DataFetchQueries) :
    occurrences "order by" (buildDataFetchQuery db k q).1 = 0 := by
  unfold occurrences
  apply countFrom_eq_zero _ _ 98 (by decide)
  rw [buildDataFetchQuery_eq_render, lowerCodes_append, lowerCodes_append]
  simp only [List.mem_append, not_or]
  exact ⟨⟨by decide, render_codes 2 _ (segments_known db q)⟩, by decide⟩

theorem map_value_ite (c : Bool) (s : Segment) :
    (if c then [s] else []).map Segment.value = if c then [s.value] else [] := by
  cases c <;> rfl

theorem length_ite (c : Bool) (v : Value) : (if c then [v] else []).length = c.toNat := by
  cases c <;> rfl

theorem segments_values (db : Database) (q : DataFetchQueries) :
    (segments db q).map Segment.value = boundParameters db q := by
  unfold segments timePredicates equalityPredicates boundParameters
  cases Filter.accepted db q .date <;>
    simp only [List.map_append, map_value_ite, List.map_cons, List.map_nil, if_true,
      Bool.false_eq_true, if_false, List.append_assoc]

theorem buildDataFetchQuery_arguments (db : Database) (apiKey : String) (q : DataFetchQueries) :
    (buildDataFetchQuery db apiKey q).2 = Value.string apiKey :: boundParameters db q := by
  rw [buildDataFetchQuery_eq_render, segments_values]

theorem buildDataFetchQuery_date (db : Database) (k : String) (q : DataFetchQueries)
    (a b : Time) (h : Filter.accepted db q .date = true) :
    buildDataFetchQuery db k { q with dateFrom := a, dateTo := b } = buildDataFetchQuery db k q := by
  have h1 : (!q.date.IsZero && db.ValidDate q.date) = true := h
  unfold buildDataFetchQuery
  simp only [h1, if_true]

/-- C2, counterexample: with the exact date as the only accepted filter the
argument list holds the credential and two date parameters, three entries for
one accepted filter. -/
theorem C2_counterexample :
    acceptedFilterCount sampleDatabase { noFilters with date := 5 } = 1 ∧
    (buildDataFetchQuery sampleDatabase "k" { noFilters with date := 5 }).2
      = [Value.string "k", Value.string "day-5", Value.string "day-5"] ∧
    ¬ ((buildDataFetchQuery sampleDatabase "k" { noFilters with date := 5 }).2.length
        = acceptedFilterCount sampleDatabase { noFilters with date := 5 } + 1) := by
  refine ⟨by rfl, by rfl, ?_⟩
  intro h
  have h3 : (buildDataFetchQuery sampleDatabase "k" { noFilters with date := 5 }).2.length = 3 := by
    rfl
  have h1 : acceptedFilterCount sampleDatabase { noFilters with date := 5 } = 1 := by rfl
  omega

/-- C2, amended: the argument list is the credential followed by the bound
parameters: two (the date's text twice) for an accepted exact date, otherwise
one per accepted range bound, then one per accepted ip, location, status,
hostname and userID filter; the length counts them accordingly. -/
theorem C2_arguments_are_bound_parameters (db : Database) (apiKey : String)
    (q : DataFetchQueries) :
    (buildDataFetchQuery db apiKey q).2 = Value.string apiKey :: boundParameters db q ∧
    (buildDataFetchQuery db apiKey q).2.length =
      1 + (if Filter.accepted db q .date then 2
            else (Filter.accepted db q .dateFrom).toNat + (Filter.accepted db q .dateTo).toNat)
        + (Filter.accepted db q .ip).toNat + (Filter.accepted db q .location).toNat
        + (Filter.accepted db q .status).toNat + (Filter.accepted db q .hostname).toNat
        + (Filter.accepted db q .userID).toNat := by
  refine ⟨buildDataFetchQuery_arguments db apiKey q, ?_⟩
  rw [buildDataFetchQuery_arguments]
  unfold boundParameters
  cases Filter.accepted db q .date <;>
    simp only [List.length_cons, List.length_append, length_ite, List.length_nil, if_true,
      Bool.false_eq_true, if_false] <;> omega

/-- C3: two filter sets in which the same filters are accepted compile to the
identical query text, whatever the filter values and the credentials are; the
values reach the result through the argument list only. -/
theorem C3_text_independent_of_values (db : Database) (k1 k2 : String)
    (q1 q2 : DataFetchQueries)
    (h : ∀ f : Filter, Filter.accepted db q1 f = Filter.accepted db q2 f) :
    (buildDataFetchQuery db k1 q1).1 = (buildDataFetchQuery db k2 q2).1 := by
  rw [buildDataFetchQuery_eq_render, buildDataFetchQuery_eq_render]
  simp only
  rw [render_shape 2 _ _ (segments_shape db q1 q2 h)]

/-- C3, witness: two credentials and two filter sets with different values for
the same accepted filters (date, ip, status). -/
theorem C3_text_independent_of_values_witness :
    (buildDataFetchQuery sampleDatabase "key-a"
        { noFilters with date := 5, ipAddress := "1.2.3.4", status := 200 }).1
      = (buildDataFetchQuery sampleDatabase "key-b"
        { noFilters with date := 77, ipAddress := "9.9.9.9", status := 404 }).1 :=
  C3_text_independent_of_values sampleDatabase "key-a" "key-b"
    { noFilters with date := 5, ipAddress := "1.2.3.4", status := 200 }
    { noFilters with date := 77, ipAddress := "9.9.9.9", status := 404 }
    (by intro f; cases f <;> rfl)

/-- C4: with the exact date accepted, the result does not depend on dateFrom
and dateTo and equals the result with both cleared; the text is the select,
the two date predicates on `$2` and `$3`, then only equality predicates on
ip_address, location, status, hostname and user_id numbered from `$4`, then
the cap; the arguments are the credential, the date's text twice, and the
values of those equality predicates. -/
theorem C4_exact_date_suppresses_range (db : Database) (k : String) (q : DataFetchQueries)
    (h : Filter.accepted db q .date = true) :
    (∀ a b : Time,
      buildDataFetchQuery db k { q with dateFrom := a, dateTo := b } = buildDataFetchQuery db k q) ∧
    buildDataFetchQuery db k q
      = buildDataFetchQuery db k (Filter.clear (Filter.clear q .dateFrom) .dateTo) ∧
    buildDataFetchQuery db k q
      = (selectRequests ++ " and created_at >= $2 and created_at < date $3 + interval '1 days'"
            ++ render 4 (equalityPredicates db q) ++ " LIMIT 500000;",
          [Value.string k, Value.string (db.Format q.date), Value.string (db.Format q.date)]
            ++ (equalityPredicates db q).map Segment.value) ∧
    ∀ s ∈ equalityPredicates db q,
      s.post = "" ∧ s.pre ∈ [" and ip_address = $", " and location = $", " and status = $",
        " and hostname = $", " and user_id = $"] := by
  refine ⟨fun a b => buildDataFetchQuery_date db k q a b h,
    (buildDataFetchQuery_date db k q 0 0 h).symm, ?_, equalityPredicates_known db q⟩
  rw [buildDataFetchQuery_eq_render]
  unfold segments timePredicates
  rw [h]
  simp only [if_true, List.cons_append, List.nil_append, render, List.map_cons,
    String.append_assoc, String.append_empty]
  rfl

/-- C4, witness: an accepted exact date together with a valid range. -/
theorem C4_exact_date_suppresses_range_witness :
    buildDataFetchQuery sampleDatabase "k" { noFilters with date := 5, dateFrom := 3, dateTo := 9 }
      = buildDataFetchQuery sampleDatabase "k" { noFilters with date := 5 } :=
  (C4_exact_date_suppresses_range sampleDatabase "k"
      { noFilters with date := 5, dateFrom := 3, dateTo := 9 } (by rfl)).2.1

/-- C5: the compiler is a total function, and a filter rejected by its
validator is treated exactly as an absent one: clearing it changes neither the
query text nor the argument list. -/
theorem C5_invalid_filter_is_absent (db : Database) (k : String) (q : DataFetchQueries)
    (f : Filter) (h : Filter.valid db q f = false) :
    buildDataFetchQuery db k q = buildDataFetchQuery db k (Filter.clear q f) := by
  cases f
  · have h1 : db.ValidDate q.date = false := h
    simp [buildDataFetchQuery, Filter.clear, h1, Time.IsZero]
  · have h1 : db.ValidDate q.dateFrom = false := h
    simp [buildDataFetchQuery, Filter.clear, h1, Time.IsZero]
  · have h1 : db.ValidDate q.dateTo = false := h
    simp [buildDataFetchQuery, Filter.clear, h1, Time.IsZero]
  · have h1 : db.ValidIPAddress q.ipAddress = false := h
    simp [buildDataFetchQuery, Filter.clear, h1]
  · have h1 : db.ValidLocation q.location = false := h
    simp [buildDataFetchQuery, Filter.clear, h1]
  · have h1 : db.ValidStatus q.status = false := h
    simp [buildDataFetchQuery, Filter.clear, h1]
  · have h1 : db.ValidString q.hostname = false := h
    simp [buildDataFetchQuery, Filter.clear, h1]
  · have h1 : db.ValidString q.userID = false := h
    simp [buildDataFetchQuery, Filter.clear, h1]

/-- C5, witness: an ip filter that is present and rejected. -/
theorem C5_invalid_filter_is_absent_witness :
    Filter.present { noFilters with ipAddress := "not-an-address", status := 200 } .ip = true ∧
    buildDataFetchQuery sampleDatabase "k" { noFilters with ipAddress := "not-an-address", status := 200 }
      = buildDataFetchQuery sampleDatabase "k" { noFilters with status := 200 } :=
  ⟨by rfl, C5_invalid_filter_is_absent sampleDatabase "k"
    { noFilters with ipAddress := "not-an-address", status := 200 } .ip (by rfl)⟩

/-- C6, counterexample: the statement compiled for a credential without
filters is the select followed at once by the row cap; no ordering clause
occurs in it. -/
theorem C6_counterexample :
    (buildDataFetchQuery sampleDatabase "k" noFilters).1
      = "SELECT ip_address, path, hostname, user_agent, method, response_time, status, location, user_id, created_at FROM requests WHERE api_key = $1 LIMIT 500000;"
    ∧ occurrences "order by" (buildDataFetchQuery sampleDatabase "k" noFilters).1 = 0 := by
  refine ⟨by rfl, by decide!⟩

/-- C6, amended: every compiled statement is the select, the accepted
predicates and, directly after them, the cap `LIMIT 500000;`; it contains no
`ORDER BY` clause in any letter case. -/
theorem C6_capped_without_ordering (db : Database) (k : String) (q : DataFetchQueries) :
    (buildDataFetchQuery db k q).1
      = selectRequests ++ render 2 (segments db q) ++ " LIMIT 500000;" ∧
    occurrences "order by" (buildDataFetchQuery db k q).1 = 0 := by
  refine ⟨?_, buildDataFetchQuery_no_order_by db k q⟩
  rw [buildDataFetchQuery_eq_render]

/-! ## Theorems: export encoder and paginated reader -/


theorem scanned_cons_ok (r : PublicRequestRow) (rows : Rows) :
    scanned (Except.ok r :: rows) = r :: scanned rows := rfl

theorem scanned_cons_error (e : String) (rows : Rows) :
    scanned (Except.error e :: rows) = scanned rows := rfl

theorem scanned_map_ok (rs : List PublicRequestRow) :
    scanned (rs.map Except.ok) = rs := by
  induction rs with
  | nil => rfl
  | cons r rs ih => rw [List.map_cons, scanned_cons_ok, ih]

/-- The verbose record built from one scanned row. -/
theorem buildRequestData_fold (lib : Lib) (rows : Rows) (acc : List PublicRequestData) :
    rows.foldl (fun requests scan =>
      match scan with
      | .ok request =>
        let ip : String :=
          match request.IPAddress.IPNet with
          | some ipNet => lib.ipString ipNet.IP
          | none => ""
        let hostname := getNullableString request.Hostname
        let userAgent := getNullableString request.UserAgent
        let location := getNullableString request.Location
        let userID := getNullableString request.UserID
        requests ++ [({
          IPAddress := ip,
          Path := request.Path,
          Hostname := hostname,
          UserAgent := userAgent,
          Method := request.Method,
          Status := request.Status,
          ResponseTime := request.ResponseTime,
          Location := location,
          UserID := userID,
          CreatedAt := request.CreatedAt } : PublicRequestData)]
      | .error _ => requests) acc
    = acc ++ (scanned rows).map (fun r =>
        { Hostname := r.Hostname.getD "",
          IPAddress := (r.IPAddress.IPNet.map fun n => lib.ipString n.IP).getD "",
          Path := r.Path,
          UserAgent := r.UserAgent.getD "",
          Method := r.Method,
          Status := r.Status,
          ResponseTime := r.ResponseTime,
          Location := r.Location.getD "",
          UserID := r.UserID.getD "",
          CreatedAt := r.CreatedAt }) := by
  induction rows generalizing acc with
  | nil => simp [scanned]
  | cons scan rows ih =>
    cases scan with
    | error e => rw [List.foldl_cons, scanned_cons_error]; exact ih acc
    | ok r =>
      rw [List.foldl_cons, scanned_cons_ok, ih]
      rcases r with ⟨h, ⟨ipn⟩, p, ua, m, st, rt, loc, uid, ca⟩
      cases h <;> cases ipn <;> cases ua <;> cases loc <;> cases uid <;>
        simp [getNullableString]


theorem buildRequestDataCompact_fold (rows : Rows) (acc : List (List Value)) :
    rows.foldl (fun requests scan =>
      match scan with
      | .ok request =>
        requests ++ [[Value.cidr request.IPAddress, Value.string request.Path,
          Value.ptrString request.Hostname, Value.ptrString request.UserAgent,
          Value.int16 request.Method, Value.int16 request.ResponseTime,
          Value.int16 request.Status, Value.ptrString request.Location,
          Value.ptrString request.UserID, Value.time request.CreatedAt]]
      | .error _ => requests) acc
    = acc ++ (scanned rows).map (fun r =>
        [Value.cidr r.IPAddress, Value.string r.Path, Value.ptrString r.Hostname,
          Value.ptrString r.UserAgent, Value.int16 r.Method, Value.int16 r.ResponseTime,
          Value.int16 r.Status, Value.ptrString r.Location, Value.ptrString r.UserID,
          Value.time r.CreatedAt]) := by
  induction rows generalizing acc with
  | nil => simp [scanned]
  | cons scan rows ih =>
    cases scan with
    | error e => rw [List.foldl_cons, scanned_cons_error]; exact ih acc
    | ok r => rw [List.foldl_cons, scanned_cons_ok, ih]; simp

/-- The row loop reads a result set no longer than `maxRequests` to its end. -/
theorem readRows_short (lib : Lib) (maxRequests : Nat) (rows : Rows)
    (requests : List (List Value)) (count : Nat)
    (h : count + rows.length ≤ maxRequests) :
    readRows lib maxRequests rows requests count
      = (requests ++ (scanned rows).map (fun r =>
          [Value.string ((r.IPAddress.IPNet.map fun n => lib.ipString n.IP).getD ""),
            Value.string r.Path, Value.string (r.Hostname.getD ""),
            Value.string (r.UserAgent.getD ""), Value.int16 r.Method,
            Value.int16 r.ResponseTime, Value.int16 r.Status,
            Value.string (r.Location.getD ""), Value.string (r.UserID.getD ""),
            Value.time r.CreatedAt]),
        count + rows.length) := by
  induction rows generalizing requests count with
  | nil => simp [readRows, scanned]
  | cons scan rows ih =>
    rw [List.length_cons] at h
    unfold readRows
    by_cases hc : count + 1 ≥ maxRequests
    · have hr : rows = [] := List.length_eq_zero.mp (by omega)
      subst hr
      cases scan with
      | error e => simp [hc, scanned]
      | ok r =>
        rcases r with ⟨h, ⟨ipn⟩, p, ua, m, st, rt, loc, uid, ca⟩
        cases h <;> cases ipn <;> cases ua <;> cases loc <;> cases uid <;>
          simp [hc, scanned, getNullableString]
    · cases scan with
      | error e =>
        simp only [hc, if_false]
        rw [ih _ _ (by omega), scanned_cons_error, List.length_cons]
        congr 1
        omega
      | ok r =>
        simp only [hc, if_false]
        rw [ih _ _ (by omega), scanned_cons_ok, List.length_cons]
        rcases r with ⟨h, ⟨ipn⟩, p, ua, m, st, rt, loc, uid, ca⟩
        cases h <;> cases ipn <;> cases ua <;> cases loc <;> cases uid <;>
          simp [getNullableString] <;> omega


/-- C7, evaluation at the failing input: for one stored row with a NULL
hostname the compact export read back by column name has `null` at hostname
(and at the other absent fields, and the raw address value at ip_address),
the verbose export has the empty string there, so the two record sets differ. -/
theorem C7_compact_differs_from_verbose :
    decodeCompact (buildRequestDataCompact [.ok rowWithNulls] cols)
      = [[("ip_address", Json.cidr ⟨some ⟨[1, 2, 3, 4], [255, 255, 255, 255]⟩⟩),
          ("path", Json.string "/v1/items"), ("hostname", Json.null), ("user_agent", Json.null),
          ("method", Json.number 0), ("response_time", Json.number 12),
          ("status", Json.number 200), ("location", Json.null), ("user_id", Json.null),
          ("created_at", Json.time 1700)]]
    ∧ decodeVerbose (buildRequestData sampleLib [.ok rowWithNulls])
      = [[("ip_address", Json.string "1.2.3.4"),
          ("path", Json.string "/v1/items"), ("hostname", Json.string ""),
          ("user_agent", Json.string ""), ("method", Json.number 0),
          ("response_time", Json.number 12), ("status", Json.number 200),
          ("location", Json.string ""), ("user_id", Json.string ""),
          ("created_at", Json.time 1700)]]
    ∧ decodeCompact (buildRequestDataCompact [.ok rowWithNulls] cols)
      ≠ decodeVerbose (buildRequestData sampleLib [.ok rowWithNulls]) := by
  refine ⟨by rfl, by rfl, by decide⟩

theorem buildRequestData_eq (lib : Lib) (rows : Rows) :
    buildRequestData lib rows = (scanned rows).map (fun r =>
        { Hostname := r.Hostname.getD "",
          IPAddress := (r.IPAddress.IPNet.map fun n => lib.ipString n.IP).getD "",
          Path := r.Path,
          UserAgent := r.UserAgent.getD "",
          Method := r.Method,
          Status := r.Status,
          ResponseTime := r.ResponseTime,
          Location := r.Location.getD "",
          UserID := r.UserID.getD "",
          CreatedAt := r.CreatedAt }) :=
  (buildRequestData_fold lib rows []).trans (List.nil_append _)

/-- C8: the verbose export holds one record per scanned row, in order; in it an
absent hostname, user agent, location, user identifier and client address is
the empty string, a present one its value (the address in its textual form),
and every other field is the row's; rows that all scan are all exported. -/
theorem C8_buildRequestData_records (lib : Lib) (rows : Rows) :
    buildRequestData lib rows = (scanned rows).map (fun r =>
        { Hostname := r.Hostname.getD "",
          IPAddress := (r.IPAddress.IPNet.map fun n => lib.ipString n.IP).getD "",
          Path := r.Path,
          UserAgent := r.UserAgent.getD "",
          Method := r.Method,
          Status := r.Status,
          ResponseTime := r.ResponseTime,
          Location := r.Location.getD "",
          UserID := r.UserID.getD "",
          CreatedAt := r.CreatedAt })
    ∧ (∀ rs : List PublicRequestRow, scanned (rs.map Except.ok) = rs)
    ∧ getNullableString none = ""
    ∧ ∀ v : String, getNullableString (some v) = v := by
  exact ⟨buildRequestData_eq lib rows, scanned_map_ok, rfl, fun _ => rfl⟩

/-- C9: the compact output starts with the given header and continues with one
row per scanned record, in order; under the ten-column header every such row
has the header's length and holds at each position the field named by the
header entry there. The row loop of `getUserRequests`, run on a page of at
most `maxRequests` rows, extends the header in the same way with the fields of
the normalised records. -/
theorem C9_compact_layout (lib : Lib) (rows : Rows) (header : List Value) (maxRequests : Nat) :
    (buildRequestDataCompact rows header).head? = some header
    ∧ (buildRequestDataCompact rows header).tail.length = (scanned rows).length
    ∧ (buildRequestDataCompact rows cols).tail.map (fun row => row.map some)
        = (scanned rows).map (fun r => columnNames.map r.field)
    ∧ (∀ row ∈ (buildRequestDataCompact rows cols).tail, row.length = cols.length)
    ∧ cols.length = 10
    ∧ (readRows lib maxRequests (rows.take maxRequests) [cols] 0).1.head? = some cols
    ∧ (readRows lib maxRequests (rows.take maxRequests) [cols] 0).1.tail.length
        = (scanned (rows.take maxRequests)).length
    ∧ (readRows lib maxRequests (rows.take maxRequests) [cols] 0).1.tail.map
          (fun row => row.map some)
        = (buildRequestData lib (rows.take maxRequests)).map (fun d => columnNames.map d.field)
    ∧ (∀ row ∈ (readRows lib maxRequests (rows.take maxRequests) [cols] 0).1.tail,
        row.length = cols.length) := by
  have hc : ∀ h : List Value, buildRequestDataCompact rows h = h :: (scanned rows).map (fun r =>
        [Value.cidr r.IPAddress, Value.string r.Path, Value.ptrString r.Hostname,
          Value.ptrString r.UserAgent, Value.int16 r.Method, Value.int16 r.ResponseTime,
          Value.int16 r.Status, Value.ptrString r.Location, Value.ptrString r.UserID,
          Value.time r.CreatedAt]) := by
    intro h
    exact buildRequestDataCompact_fold rows [h]
  have hr := readRows_short lib maxRequests (rows.take maxRequests) [cols] 0
    (by rw [List.length_take]; omega)
  refine ⟨?_, ?_, ?_, ?_, rfl, ?_, ?_, ?_, ?_⟩
  · rw [hc]; rfl
  · rw [hc]; simp
  · rw [hc, List.tail_cons, List.map_map]
    apply List.map_congr_left
    intro r _
    rfl
  · rw [hc, List.tail_cons]
    intro row hrow
    obtain ⟨r, _, rfl⟩ := List.mem_map.mp hrow
    rfl
  · rw [hr]; rfl
  · rw [hr]; simp
  · rw [hr, buildRequestData_eq]
    simp only [List.singleton_append, List.tail_cons, List.map_map]
    apply List.map_congr_left
    intro r _
    rfl
  · rw [hr]
    simp only [List.singleton_append, List.tail_cons]
    intro row hrow
    obtain ⟨r, _, rfl⟩ := List.mem_map.mp hrow
    rfl


theorem positionalRows_eq (lib : Lib) (rs : List PublicRequestRow) :
    positionalRows lib rs = rs.map (fun r =>
          [Value.string ((r.IPAddress.IPNet.map fun n => lib.ipString n.IP).getD ""),
            Value.string r.Path, Value.string (r.Hostname.getD ""),
            Value.string (r.UserAgent.getD ""), Value.int16 r.Method,
            Value.int16 r.ResponseTime, Value.int16 r.Status,
            Value.string (r.Location.getD ""), Value.string (r.UserID.getD ""),
            Value.time r.CreatedAt]) := by
  unfold positionalRows
  rw [buildRequestData_eq, scanned_map_ok, List.map_map]
  apply List.map_congr_left
  intro r _
  rfl

theorem orderByCreatedAt_sorted (rows : List RequestRow)
    (h : (rows.map fun r => r.request.CreatedAt).Pairwise (· < ·)) :
    orderByCreatedAt rows = rows := by
  unfold orderByCreatedAt
  apply List.Sorted.insertionSort_eq
  rw [List.pairwise_map] at h
  exact h.imp (fun hab => Nat.le_of_lt hab)

/-- One iteration of the page loop whose page statement succeeds ends the loop
when the cap is the page size. -/
theorem pageLoop_single (lib : Lib) (pageSize : Nat) (apiKey : String) (fuel : Nat) (conn : Conn)
    (requests : List (List Value)) (h : conn.failures.headD false = false) :
    pageLoop lib pageSize pageSize apiKey (fuel + 1) conn 0 requests
      = .done (requests ++ positionalRows lib ((unpagedQuery conn.store apiKey).take pageSize))
          (conn.send pageQuery [Value.string apiKey, Value.time 0, Value.int pageSize]).2 := by
  have hfilter : (conn.store.requests.filter fun r =>
        r.APIKey == apiKey && decide (0 ≤ r.request.CreatedAt))
      = conn.store.requests.filter fun r => r.APIKey == apiKey := by
    congr 1
    funext r
    simp
  have hlen : (((orderByCreatedAt (conn.store.requests.filter fun r =>
        r.APIKey == apiKey)).take pageSize).map
          fun r => (Except.ok r.request : ScanResult)).length ≤ pageSize := by
    rw [List.length_map, List.length_take]
    omega
  unfold pageLoop Conn.queryPage
  simp only [Conn.send, h, Bool.false_eq_true, if_false]
  rw [hfilter, readRows_short lib pageSize _ requests 0 (by omega)]
  simp only [Nat.zero_add, hlen, true_or, if_true]
  rw [positionalRows_eq]
  unfold unpagedQuery
  have hs : ∀ l : List RequestRow,
      scanned (l.map fun r => (Except.ok r.request : ScanResult)) = l.map fun r => r.request := by
    intro l
    induction l with
    | nil => rfl
    | cons a l ih => rw [List.map_cons, scanned_cons_ok, ih]; rfl
  rw [hs, List.map_take]


set_option maxRecDepth 100000 in
/-- C1, counterexample: three rows of one credential created at 10, 20 and 30
and page size 2. The loop sends one page statement where two are claimed, and
collects the first two rows, which are not the three of the unpaged query; it
also sends a single page statement when the cap is left at 500000. -/
theorem C1_counterexample :
    (pageLoop sampleLib 2 2 "k" 5 (sampleConn [requestAt 10, requestAt 20, requestAt 30]) 0
        [cols]).conn.map pageQueries = some 1
    ∧ (pageLoop sampleLib 2 500000 "k" 5 (sampleConn [requestAt 10, requestAt 20, requestAt 30]) 0
        [cols]).conn.map pageQueries = some 1
    ∧ (3 + 2 - 1) / 2 = 2
    ∧ (pageLoop sampleLib 2 2 "k" 5 (sampleConn [requestAt 10, requestAt 20, requestAt 30]) 0
        [cols]).requests.map List.tail
        = some (positionalRows sampleLib [(requestAt 10).request, (requestAt 20).request])
    ∧ unpagedQuery (sampleConn [requestAt 10, requestAt 20, requestAt 30]).store "k"
        = [(requestAt 10).request, (requestAt 20).request, (requestAt 30).request]
    ∧ (pageLoop sampleLib 2 2 "k" 5 (sampleConn [requestAt 10, requestAt 20, requestAt 30]) 0
        [cols]).requests.map List.tail
        ≠ some (positionalRows sampleLib
            (unpagedQuery (sampleConn [requestAt 10, requestAt 20, requestAt 30]).store "k")) := by
  refine ⟨by rfl, by rfl, by rfl, by rfl, by rfl, by decide⟩

/-- C1, amended: with the cap equal to the page size `P`, as the source sets
it, and `P` below the number `N` of the credential's rows, which are stored
with strictly increasing `created_at`, the page loop ends after exactly one
page statement; the data rows it collects are, in order, the first `P` rows of
the single unpaged query (here the credential's rows in stored order), each
once. -/
theorem C1_one_page_up_to_cap (lib : Lib) (conn : Conn) (apiKey : String) (P fuel : Nat)
    (hfail : conn.failures.headD false = false)
    (hinc : ((conn.store.requests.filter fun r => r.APIKey == apiKey).map
      fun r => r.request.CreatedAt).Pairwise (· < ·))
    (hP : P < (conn.store.requests.filter fun r => r.APIKey == apiKey).length) :
    ∃ conn' : Conn,
      pageLoop lib P P apiKey (fuel + 1) conn 0 [cols]
        = .done (cols :: positionalRows lib ((unpagedQuery conn.store apiKey).take P)) conn'
      ∧ pageQueries conn' = pageQueries conn + 1
      ∧ conn'.store = conn.store
      ∧ unpagedQuery conn.store apiKey
          = (conn.store.requests.filter fun r => r.APIKey == apiKey).map (fun r => r.request)
      ∧ (positionalRows lib ((unpagedQuery conn.store apiKey).take P)).length = P
      ∧ (positionalRows lib ((unpagedQuery conn.store apiKey).take P)).Nodup := by
  have hu : unpagedQuery conn.store apiKey
      = (conn.store.requests.filter fun r => r.APIKey == apiKey).map (fun r => r.request) := by
    unfold unpagedQuery
    rw [orderByCreatedAt_sorted _ hinc]
  refine ⟨_, pageLoop_single lib P apiKey fuel conn [cols] hfail, ?_, rfl, hu, ?_, ?_⟩
  · simp [pageQueries, Conn.send, List.filter_append]
  · rw [positionalRows_eq, List.length_map, List.length_take, hu, List.length_map]
    exact Nat.min_eq_left (Nat.le_of_lt hP)
  · rw [positionalRows_eq, hu]
    have h1 : ((conn.store.requests.filter fun r => r.APIKey == apiKey).map
        (fun r => r.request)).Pairwise (fun a b => a.CreatedAt < b.CreatedAt) := by
      rw [List.pairwise_map] at hinc ⊢
      exact hinc
    have h2 := h1.sublist (List.take_sublist P _)
    unfold List.Nodup
    rw [List.pairwise_map]
    refine h2.imp ?_
    intro a b hab heq
    simp only [List.cons.injEq, Value.time.injEq] at heq
    exact absurd heq.2.2.2.2.2.2.2.2.2.1 (Nat.ne_of_lt hab)

set_option maxRecDepth 100000 in
/-- C1, witness: the store of the counterexample, page size 2. -/
theorem C1_one_page_up_to_cap_witness :
    ∃ conn' : Conn,
      pageLoop sampleLib 2 2 "k" (0 + 1) (sampleConn [requestAt 10, requestAt 20, requestAt 30]) 0
          [cols]
        = .done (cols :: positionalRows sampleLib
            ((unpagedQuery (sampleConn [requestAt 10, requestAt 20, requestAt 30]).store "k").take
              2)) conn'
      ∧ pageQueries conn' = pageQueries (sampleConn [requestAt 10, requestAt 20, requestAt 30]) + 1
      ∧ conn'.store = (sampleConn [requestAt 10, requestAt 20, requestAt 30]).store
      ∧ unpagedQuery (sampleConn [requestAt 10, requestAt 20, requestAt 30]).store "k"
          = ((sampleConn [requestAt 10, requestAt 20, requestAt 30]).store.requests.filter
              fun r => r.APIKey == "k").map (fun r => r.request)
      ∧ (positionalRows sampleLib
          ((unpagedQuery (sampleConn [requestAt 10, requestAt 20, requestAt 30]).store "k").take
            2)).length = 2
      ∧ (positionalRows sampleLib
          ((unpagedQuery (sampleConn [requestAt 10, requestAt 20, requestAt 30]).store "k").take
            2)).Nodup :=
  C1_one_page_up_to_cap sampleLib (sampleConn [requestAt 10, requestAt 20, requestAt 30]) "k" 2 0
    (by rfl) (by decide) (by decide)

set_option maxRecDepth 100000 in
/-- C10, evaluation at the failing input: the only stored row has a timestamp
the marshaller rejects, so `compressJSON` returns an error; the handler writes
HTTP code 400 with `500` in the body only, and a failed page statement is
answered with the same HTTP code 400. -/
theorem C10_compression_failure_answers_400 :
    compressJSON sampleLib (cols :: positionalRows sampleLib [(requestAt 10000).request])
      = .error "Time.MarshalJSON: year outside of range [0,9999]"
    ∧ (getUserRequests sampleLib 1 500000 "u1" emptyContext
          (sampleConn [requestAt 10000])).context
        = some { headers := [],
                 writes := [{ code := 400, body := .h 500 "Compression failed." }] }
    ∧ ((getUserRequests sampleLib 1 500000 "u1" emptyContext
          (sampleConn [requestAt 10000])).context.bind Context.status) = some 400
    ∧ ((getUserRequests sampleLib 1 500000 "u1" emptyContext
          { sampleConn [requestAt 10000] with failures := [false, true] }).context.bind
            Context.status) = some 400 := by
  refine ⟨by rfl, by rfl, by rfl, by rfl⟩

/-! ## Theorems: account purge and access recording -/

theorem deleteData_run (apiKey : String) (c : Context) (conn : Conn) :
    (deleteData apiKey c conn).2.issued
        = conn.issued ++ (purgeStatements apiKey).take
            (match firstFailure conn.failures with
              | some k => k + 1
              | none => 4)
    ∧ (deleteData apiKey c conn).2.store
        = purged apiKey
            (match firstFailure conn.failures with
              | some k => k
              | none => 4) conn.store
    ∧ (deleteData apiKey c conn).1.writes
        = c.writes
          ++ (if apiKey = "" then
                [{ code := 400, body := .h 400 "Invalid API key." }] else [])
          ++ (match firstFailure conn.failures with
              | some _ => [{ code := 400, body := .h 400 "Invalid API key." }]
              | none => [{ code := 200, body := .h 200 "Account data deleted successfully." }]) := by
  rcases conn with ⟨store, failures, issued, now, rowsErr⟩
  rcases store with ⟨users, requests, monitor, pings⟩
  by_cases hk : apiKey = "" <;>
  rcases failures with _ | ⟨b0, _ | ⟨b1, _ | ⟨b2, _ | ⟨b3, rest⟩⟩⟩⟩ <;>
  (try cases b0) <;> (try cases b1) <;> (try cases b2) <;> (try cases b3) <;>
    simp [deleteData, deleteUserRequests, deleteUserAccount, deleteUserMonitors, deleteUserPings,
      Conn.send, firstFailure, purged, purgeStatements, Context.JSON, hk,
      StatusBadRequest, StatusOK]

theorem send_frame (conn : Conn) (query : String) (args : List Value)
    (h : query ≠ updateLastAccessedQuery) :
    (conn.send query args).2.store = conn.store
      ∧ updateStatements (conn.send query args).2 = updateStatements conn := by
  refine ⟨rfl, ?_⟩
  have hq : (query == updateLastAccessedQuery) = false := by simpa using h
  simp [updateStatements, Conn.send, List.filter_append, List.filter_cons, hq]

theorem queryPage_frame (conn : Conn) (apiKey : String) (pageMarker : Time) (pageSize : Nat) :
    (conn.queryPage apiKey pageMarker pageSize).2.store = conn.store
      ∧ updateStatements (conn.queryPage apiKey pageMarker pageSize).2 = updateStatements conn := by
  have hs := send_frame conn pageQuery
    [Value.string apiKey, Value.time pageMarker, Value.int pageSize] (by decide)
  unfold Conn.queryPage
  simp only
  split
  · split <;> exact hs
  · exact hs

theorem pageLoop_frame (lib : Lib) (pageSize maxRequests : Nat) (apiKey : String) (fuel : Nat)
    (conn : Conn) (pageMarker : Time) (requests : List (List Value)) (conn' : Conn)
    (h : (pageLoop lib pageSize maxRequests apiKey fuel conn pageMarker requests).lastConn
      = some conn') :
    conn'.store = conn.store ∧ updateStatements conn' = updateStatements conn := by
  induction fuel generalizing conn pageMarker requests with
  | zero => simp [pageLoop, PageLoop.lastConn] at h
  | succ fuel ih =>
    have hq := queryPage_frame conn apiKey pageMarker pageSize
    unfold pageLoop at h
    rcases hr : conn.queryPage apiKey pageMarker pageSize with ⟨res, conn1⟩
    rw [hr] at h hq
    cases res with
    | error e =>
      simp only [PageLoop.lastConn, Option.some.injEq] at h
      rw [← h]
      exact hq
    | ok rows =>
      simp only at h
      split at h
      · simp only [PageLoop.lastConn, Option.some.injEq] at h
        rw [← h]
        exact hq
      · split at h
        · simp only [PageLoop.lastConn, Option.some.injEq] at h
          rw [← h]
          exact hq
        · split at h
          · have := ih _ _ _ h
            exact ⟨this.1.trans hq.1, this.2.trans hq.2⟩
          · simp only [PageLoop.lastConn, Option.some.injEq] at h
            rw [← h]
            exact hq

theorem queryApiKey_frame (conn : Conn) (userID : String) :
    (conn.queryApiKey userID).2.store = conn.store
      ∧ updateStatements (conn.queryApiKey userID).2 = updateStatements conn := by
  have hs := send_frame conn apiKeyQuery [Value.string userID] (by decide)
  unfold Conn.queryApiKey
  simp only
  split
  · exact hs
  · split <;> exact hs

/-- A run of `getUserRequests` in which the credential lookup, `conn.Query` of
a page statement or the compression returns an error ends without sending the
`updateLastAccessed` statement and leaves every table as it was; and whenever a
run has sent that statement or changed the store, the lookup had succeeded, the
page loop had ended without an error returned by `conn.Query`, and the result
had been compressed before. -/
theorem getUserRequests_update_after_returned_errors (lib : Lib) (fuel pageSize : Nat)
    (userID : String) (c : Context) (conn : Conn) :
    (failsBeforeUpdate lib fuel pageSize userID conn = true →
      ∃ c' conn', getUserRequests lib fuel pageSize userID c conn = .returned c' conn'
        ∧ updateStatements conn' = updateStatements conn
        ∧ conn'.store = conn.store)
    ∧ (∀ conn', (getUserRequests lib fuel pageSize userID c conn).conn = some conn' →
        (updateStatements conn' = updateStatements conn ∧ conn'.store = conn.store)
        ∨ ∃ apiKey conn1 requests conn2 gzipOutput,
            conn.queryApiKey userID = (.ok apiKey, conn1)
            ∧ pageLoop lib pageSize pageSize apiKey fuel conn1 0 [cols] = .done requests conn2
            ∧ compressJSON lib requests = .ok gzipOutput
            ∧ conn' = (updateLastAccessed conn2 apiKey).2) := by
  have hq := queryApiKey_frame conn userID
  constructor
  · intro hfail
    unfold failsBeforeUpdate at hfail
    unfold getUserRequests
    by_cases hu : userID = ""
    · simp only [hu, if_true]
      exact ⟨_, _, rfl, rfl, rfl⟩
    · simp only [hu, if_false]
      rcases hl : conn.queryApiKey userID with ⟨res, conn1⟩
      rw [hl] at hfail hq
      cases res with
      | error e => exact ⟨_, _, rfl, hq.2, hq.1⟩
      | ok apiKey =>
        simp only at hfail ⊢
        cases hp : pageLoop lib pageSize pageSize apiKey fuel conn1 0 [cols] with
        | outOfFuel => rw [hp] at hfail; simp at hfail
        | panicked conn2 => rw [hp] at hfail; simp at hfail
        | queryError conn2 =>
          have hf := pageLoop_frame lib pageSize pageSize apiKey fuel conn1 0 [cols] conn2
            (by rw [hp]; rfl)
          exact ⟨_, _, rfl, hf.2.trans hq.2, hf.1.trans hq.1⟩
        | done requests conn2 =>
          have hf := pageLoop_frame lib pageSize pageSize apiKey fuel conn1 0 [cols] conn2
            (by rw [hp]; rfl)
          rw [hp] at hfail
          simp only at hfail ⊢
          cases hz : compressJSON lib requests with
          | error e => exact ⟨_, _, rfl, hf.2.trans hq.2, hf.1.trans hq.1⟩
          | ok gz => rw [hz] at hfail; simp at hfail
  · intro conn' hconn
    unfold getUserRequests at hconn
    by_cases hu : userID = ""
    · simp only [hu, if_true, Outcome.conn, Option.some.injEq] at hconn
      exact Or.inl (by rw [← hconn]; exact ⟨rfl, rfl⟩)
    · simp only [hu, if_false] at hconn
      rcases hl : conn.queryApiKey userID with ⟨res, conn1⟩
      rw [hl] at hconn hq
      cases res with
      | error e =>
        simp only [Outcome.conn, Option.some.injEq] at hconn
        exact Or.inl (by rw [← hconn]; exact ⟨hq.2, hq.1⟩)
      | ok apiKey =>
        simp only at hconn
        cases hp : pageLoop lib pageSize pageSize apiKey fuel conn1 0 [cols] with
        | outOfFuel => rw [hp] at hconn; simp [Outcome.conn] at hconn
        | panicked conn2 =>
          have hf := pageLoop_frame lib pageSize pageSize apiKey fuel conn1 0 [cols] conn2
            (by rw [hp]; rfl)
          rw [hp] at hconn
          simp only [Outcome.conn, Option.some.injEq] at hconn
          exact Or.inl (by rw [← hconn]; exact ⟨hf.2.trans hq.2, hf.1.trans hq.1⟩)
        | queryError conn2 =>
          have hf := pageLoop_frame lib pageSize pageSize apiKey fuel conn1 0 [cols] conn2
            (by rw [hp]; rfl)
          rw [hp] at hconn
          simp only [Outcome.conn, Option.some.injEq] at hconn
          exact Or.inl (by rw [← hconn]; exact ⟨hf.2.trans hq.2, hf.1.trans hq.1⟩)
        | done requests conn2 =>
          have hf := pageLoop_frame lib pageSize pageSize apiKey fuel conn1 0 [cols] conn2
            (by rw [hp]; rfl)
          rw [hp] at hconn
          simp only at hconn
          cases hz : compressJSON lib requests with
          | error e =>
            rw [hz] at hconn
            simp only [Outcome.conn, Option.some.injEq] at hconn
            exact Or.inl (by rw [← hconn]; exact ⟨hf.2.trans hq.2, hf.1.trans hq.1⟩)
          | ok gz =>
            rw [hz] at hconn
            refine Or.inr ⟨apiKey, conn1, requests, conn2, gz, rfl, hp, hz, ?_⟩
            simp only at hconn
            split at hconn <;>
              (rename_i heq; simp only [Outcome.conn, Option.some.injEq] at hconn
               rw [← hconn, heq])

set_option maxRecDepth 100000 in
/-- C11, evaluation at the failing input: the credential lookup succeeds and
the page statement fails while it runs, so that `conn.Query` returns no error
and the failure is held by `rows.Err()`, which the handler never reads. The
page loop ends normally with no row read; the handler answers 200 with the
header row alone, sends the `updateLastAccessed` statement after the failed
page statement, and `last_accessed` of the account changes from 1 to the time
of the call, 5000. When the same failure is returned by `conn.Query`, the
answer is 400, no statement follows and the users table is left as it was. -/
theorem C11_failed_page_still_records_access :
    pageLoop sampleLib 500000 500000 "k" 1 (failedPageConn.queryApiKey "u1").2 0 [cols]
      = .done [cols]
          { failedPageConn with
            failures := [], rowsErr := [],
            issued := [{ query := apiKeyQuery, args := [Value.string "u1"] },
              { query := pageQuery,
                args := [Value.string "k", Value.time 0, Value.int 500000] }] }
    ∧ ((getUserRequests sampleLib 1 500000 "u1" emptyContext failedPageConn).context.bind
        Context.status) = some 200
    ∧ ((getUserRequests sampleLib 1 500000 "u1" emptyContext failedPageConn).conn.map
        fun conn => conn.issued.map fun s => s.query)
        = some [apiKeyQuery, pageQuery, updateLastAccessedQuery]
    ∧ ((getUserRequests sampleLib 1 500000 "u1" emptyContext failedPageConn).conn.map
        updateStatements) = some 1
    ∧ failedPageConn.store.users
        = [{ UserID := "u1", APIKey := "k", CreatedAt := 1, LastAccessed := 1 }]
    ∧ ((getUserRequests sampleLib 1 500000 "u1" emptyContext failedPageConn).conn.map
        fun conn => conn.store.users)
        = some [{ UserID := "u1", APIKey := "k", CreatedAt := 1, LastAccessed := 5000 }]
    ∧ ((getUserRequests sampleLib 1 500000 "u1" emptyContext
          { failedPageConn with rowsErr := [] }).context.bind Context.status) = some 400
    ∧ ((getUserRequests sampleLib 1 500000 "u1" emptyContext
          { failedPageConn with rowsErr := [] }).conn.map fun conn => conn.issued.map fun s => s.query)
        = some [apiKeyQuery, pageQuery]
    ∧ ((getUserRequests sampleLib 1 500000 "u1" emptyContext
          { failedPageConn with rowsErr := [] }).conn.map fun conn => conn.store)
        = some failedPageConn.store := by
  refine ⟨by rfl, by rfl, by rfl, by rfl, by rfl, by rfl, by rfl, by rfl, by rfl⟩

/-- C12: after a purge for a credential in which none of the four delete
statements fails, the requests, users, monitor and pings tables hold no row of
that credential, and each table holds exactly its former rows of the other
credentials, unchanged and in their order. -/
theorem C12_purge_removes_credential (apiKey : String) (c : Context) (conn : Conn)
    (h : firstFailure conn.failures = none) :
    (∀ r ∈ (deleteData apiKey c conn).2.store.requests, r.APIKey ≠ apiKey)
    ∧ (∀ u ∈ (deleteData apiKey c conn).2.store.users, u.APIKey ≠ apiKey)
    ∧ (∀ m ∈ (deleteData apiKey c conn).2.store.monitor, m.APIKey ≠ apiKey)
    ∧ (∀ p ∈ (deleteData apiKey c conn).2.store.pings, p.APIKey ≠ apiKey)
    ∧ (deleteData apiKey c conn).2.store.requests
        = conn.store.requests.filter (fun r => r.APIKey != apiKey)
    ∧ (deleteData apiKey c conn).2.store.users
        = conn.store.users.filter (fun u => u.APIKey != apiKey)
    ∧ (deleteData apiKey c conn).2.store.monitor
        = conn.store.monitor.filter (fun m => m.APIKey != apiKey)
    ∧ (deleteData apiKey c conn).2.store.pings
        = conn.store.pings.filter (fun p => p.APIKey != apiKey) := by
  have hs := (deleteData_run apiKey c conn).2.1
  rw [h] at hs
  simp only [purged] at hs
  rw [hs]
  simp

/-- C12, witness: the purge of `k` in a store of two accounts. -/
theorem C12_purge_removes_credential_witness :
    (deleteData "k" emptyContext
        { store := twoAccounts, failures := [], issued := [], now := 9 }).2.store.requests
      = twoAccounts.requests.filter (fun r => r.APIKey != "k") :=
  (C12_purge_removes_credential "k" emptyContext
    { store := twoAccounts, failures := [], issued := [], now := 9 } (by rfl)).2.2.2.2.1

/-- C13: `deleteData` sends its delete statements in the order requests,
users, monitor, pings and stops with the first one that fails: when the
statement at position `k` fails, exactly the first `k + 1` statements have been
sent, the store is the one left by the first `k` deletions, and the response
status is 400; when none fails all four are sent and applied; the status is
200 exactly when none failed and the credential is not empty. -/
theorem C13_purge_order_and_halt (apiKey : String) (conn : Conn) :
    (deleteData apiKey emptyContext conn).2.issued
        = conn.issued ++ (purgeStatements apiKey).take
            (match firstFailure conn.failures with
              | some k => k + 1
              | none => 4)
    ∧ (deleteData apiKey emptyContext conn).2.store
        = purged apiKey
            (match firstFailure conn.failures with
              | some k => k
              | none => 4) conn.store
    ∧ (deleteData apiKey emptyContext conn).1.status
        = (match firstFailure conn.failures with
            | some _ => some 400
            | none => if apiKey = "" then some 400 else some 200)
    ∧ (purgeStatements apiKey).map Statement.query
        = ["DELETE FROM requests WHERE api_key = $1;", "DELETE FROM users WHERE api_key = $1;",
            "DELETE FROM monitor WHERE api_key = $1;", "DELETE FROM pings WHERE api_key = $1;"] := by
  have hr := deleteData_run apiKey emptyContext conn
  refine ⟨hr.1, hr.2.1, ?_, rfl⟩
  unfold Context.status
  rw [hr.2.2]
  by_cases hk : apiKey = "" <;> cases firstFailure conn.failures <;>
    simp [hk, emptyContext]

/-- C20, evaluation at the failing input: for the empty credential
`deleteData` writes the 400 response, then sends all four delete statements
with the empty credential and writes the 200 body after it. -/
theorem C20_empty_credential_falls_through :
    (deleteData "" emptyContext
        { store := twoAccounts, failures := [], issued := [], now := 9 }).2.issued
      = [{ query := "DELETE FROM requests WHERE api_key = $1;", args := [Value.string ""] },
          { query := "DELETE FROM users WHERE api_key = $1;", args := [Value.string ""] },
          { query := "DELETE FROM monitor WHERE api_key = $1;", args := [Value.string ""] },
          { query := "DELETE FROM pings WHERE api_key = $1;", args := [Value.string ""] }]
    ∧ (deleteData "" emptyContext
        { store := twoAccounts, failures := [], issued := [], now := 9 }).1.writes
      = [{ code := 400, body := .h 400 "Invalid API key." },
          { code := 200, body := .h 200 "Account data deleted successfully." }] := by
  refine ⟨by rfl, by rfl⟩

/-! ## Theorems: monitor targets -/

theorem send_store (conn : Conn) (query : String) (args : List Value) :
    (conn.send query args).2.store = conn.store ∧ (conn.send query args).2.now = conn.now :=
  ⟨rfl, rfl⟩

theorem queryApiKey_spec (conn : Conn) (userID : String) :
    (conn.queryApiKey userID).2.store = conn.store
    ∧ (conn.queryApiKey userID).2.now = conn.now
    ∧ ∀ apiKey, (conn.queryApiKey userID).1 = .ok apiKey →
        lookupKey conn.store userID = some apiKey := by
  unfold Conn.queryApiKey lookupKey
  simp only [Conn.send]
  split
  · exact ⟨rfl, rfl, fun _ h => by simp at h⟩
  · split
    · rename_i u hu
      refine ⟨rfl, rfl, fun k h => ?_⟩
      simp only [Except.ok.injEq] at h
      rw [hu, ← h]
      rfl
    · exact ⟨rfl, rfl, fun _ h => by simp at h⟩

theorem queryMonitorExists_spec (conn : Conn) (apiKey url : String) :
    (conn.queryMonitorExists apiKey url).2.store = conn.store
    ∧ (conn.queryMonitorExists apiKey url).2.now = conn.now
    ∧ ∀ n, (conn.queryMonitorExists apiKey url).1 = .ok n →
        n = (conn.store.monitor.filter fun m => m.APIKey == apiKey && m.URL == url).length := by
  unfold Conn.queryMonitorExists
  simp only [Conn.send]
  split
  · exact ⟨rfl, rfl, fun _ h => by simp at h⟩
  · exact ⟨rfl, rfl, fun n h => by simp only [Except.ok.injEq] at h; exact h.symm⟩

theorem queryMonitorCount_spec (conn : Conn) (apiKey : String) :
    (conn.queryMonitorCount apiKey).2.store = conn.store
    ∧ (conn.queryMonitorCount apiKey).2.now = conn.now
    ∧ ∀ n, (conn.queryMonitorCount apiKey).1 = .ok n →
        n = (conn.store.monitor.filter fun m => m.APIKey == apiKey).length := by
  unfold Conn.queryMonitorCount
  simp only [Conn.send]
  split
  · exact ⟨rfl, rfl, fun _ h => by simp at h⟩
  · exact ⟨rfl, rfl, fun n h => by simp only [Except.ok.injEq] at h; exact h.symm⟩

theorem insertMonitor_spec (conn : Conn) (apiKey : String) (monitor : Monitor) :
    ((conn.insertMonitor apiKey monitor).1 ≠ none →
      (conn.insertMonitor apiKey monitor).2.store = conn.store)
    ∧ ((conn.insertMonitor apiKey monitor).1 = none →
      (conn.insertMonitor apiKey monitor).2.store
        = { conn.store with
            monitor := conn.store.monitor ++ [newTarget apiKey monitor conn.now] }) := by
  unfold Conn.insertMonitor
  simp only [Conn.send]
  split
  · exact ⟨fun _ => rfl, fun h => by simp at h⟩
  · exact ⟨fun h => by simp at h, fun _ => rfl⟩

/-- The three ways a call of `addUserMonitor` ends: a 400 response, a 409
response for a pair counted once, or a 201 response with the target appended
for a pair not counted once under a count below 3. -/
theorem addUserMonitor_cases (body : Except String Monitor) (c : Context) (conn : Conn) :
    ((addUserMonitor body c conn).2.store = conn.store
      ∧ ∃ message, (addUserMonitor body c conn).1 = c.JSON 400 400 message)
    ∨ ((addUserMonitor body c conn).2.store = conn.store
      ∧ (addUserMonitor body c conn).1 = c.JSON 409 409 "Monitor already exists."
      ∧ ∃ monitor apiKey, body = .ok monitor
          ∧ lookupKey conn.store monitor.UserID = some apiKey
          ∧ (conn.store.monitor.filter fun m =>
              m.APIKey == apiKey && m.URL == monitor.URL).length = 1)
    ∨ (∃ monitor apiKey, body = .ok monitor
          ∧ lookupKey conn.store monitor.UserID = some apiKey
          ∧ (conn.store.monitor.filter fun m =>
              m.APIKey == apiKey && m.URL == monitor.URL).length ≠ 1
          ∧ (conn.store.monitor.filter fun m => m.APIKey == apiKey).length < 3
          ∧ (addUserMonitor body c conn).2.store
              = { conn.store with
                  monitor := conn.store.monitor ++ [newTarget apiKey monitor conn.now] }
          ∧ (addUserMonitor body c conn).1
              = c.JSON 201 201 "New monitor created successfully.") := by
  unfold addUserMonitor
  cases body with
  | error e =>
    refine Or.inl ⟨rfl, "Invalid request body.", rfl⟩
  | ok monitor =>
    dsimp only
    by_cases hu : monitor.UserID = ""
    · rw [if_pos hu]
      exact Or.inl ⟨rfl, _, rfl⟩
    · rw [if_neg hu]
      have h1 := queryApiKey_spec conn monitor.UserID
      rcases hq1 : conn.queryApiKey monitor.UserID with ⟨r1, conn1⟩
      rw [hq1] at h1
      cases r1 with
      | error e => exact Or.inl ⟨h1.1, _, rfl⟩
      | ok apiKey =>
        have hkey := h1.2.2 apiKey rfl
        dsimp only
        have h2 := queryMonitorExists_spec conn1 apiKey monitor.URL
        rcases hq2 : conn1.queryMonitorExists apiKey monitor.URL with ⟨r2, conn2⟩
        rw [hq2] at h2
        simp only at h1 h2
        cases r2 with
        | error e => exact Or.inl ⟨h2.1.trans h1.1, _, rfl⟩
        | ok count =>
          have hcount := h2.2.2 count rfl
          rw [h1.1] at hcount
          dsimp only
          by_cases hc : count = 1
          · rw [if_pos hc]
            exact Or.inr (Or.inl ⟨h2.1.trans h1.1, rfl, monitor, apiKey, rfl, hkey,
              by rw [← hcount, hc]⟩)
          · rw [if_neg hc]
            have h3 := queryMonitorCount_spec conn2 apiKey
            rcases hq3 : conn2.queryMonitorCount apiKey with ⟨r3, conn3⟩
            rw [hq3] at h3
            simp only at h3
            cases r3 with
            | error e => exact Or.inl ⟨h3.1.trans (h2.1.trans h1.1), _, rfl⟩
            | ok monitorCount =>
              have hmc := h3.2.2 monitorCount rfl
              rw [h2.1, h1.1] at hmc
              dsimp only
              by_cases hl : monitorCount ≥ 3
              · rw [if_pos hl]
                exact Or.inl ⟨h3.1.trans (h2.1.trans h1.1), _, rfl⟩
              · rw [if_neg hl]
                have h4 := insertMonitor_spec conn3 apiKey monitor
                rcases hq4 : conn3.insertMonitor apiKey monitor with ⟨r4, conn4⟩
                rw [hq4] at h4
                simp only at h4
                have hstore3 : conn3.store = conn.store := h3.1.trans (h2.1.trans h1.1)
                have hnow3 : conn3.now = conn.now := h3.2.1.trans (h2.2.1.trans h1.2.1)
                cases r4 with
                | some e =>
                  exact Or.inl ⟨(h4.1 (by simp)).trans hstore3, _, rfl⟩
                | none =>
                  refine Or.inr (Or.inr ⟨monitor, apiKey, rfl, hkey, ?_, ?_, ?_, rfl⟩)
                  · rw [← hcount]; exact hc
                  · rw [← hmc]; omega
                  · rw [h4.2 rfl, hstore3, hnow3]

theorem send_ok (conn : Conn) (query : String) (args : List Value)
    (h : conn.failures.headD false = false) : (conn.send query args).1 = false := h

/-- The calls of `addUserMonitor` evaluated for a resolvable owner identifier
when the statements they send succeed. -/
theorem addUserMonitor_ok (monitor : Monitor) (c : Context) (conn : Conn) (apiKey : String)
    (hu : monitor.UserID ≠ "") (hkey : lookupKey conn.store monitor.UserID = some apiKey) :
    ((conn.store.monitor.filter fun m =>
          m.APIKey == apiKey && m.URL == monitor.URL).length = 1 →
        succeeds 2 conn.failures = true →
        (addUserMonitor (.ok monitor) c conn).1 = c.JSON 409 409 "Monitor already exists."
          ∧ (addUserMonitor (.ok monitor) c conn).2.store = conn.store)
    ∧ ((conn.store.monitor.filter fun m =>
          m.APIKey == apiKey && m.URL == monitor.URL).length ≠ 1 →
        3 ≤ (conn.store.monitor.filter fun m => m.APIKey == apiKey).length →
        succeeds 3 conn.failures = true →
        (addUserMonitor (.ok monitor) c conn).1 = c.JSON 400 400 "Monitor limit reached."
          ∧ (addUserMonitor (.ok monitor) c conn).2.store = conn.store)
    ∧ ((conn.store.monitor.filter fun m =>
          m.APIKey == apiKey && m.URL == monitor.URL).length ≠ 1 →
        (conn.store.monitor.filter fun m => m.APIKey == apiKey).length < 3 →
        succeeds 4 conn.failures = true →
        (addUserMonitor (.ok monitor) c conn).1
            = c.JSON 201 201 "New monitor created successfully."
          ∧ (addUserMonitor (.ok monitor) c conn).2.store
            = { conn.store with
                monitor := conn.store.monitor ++ [newTarget apiKey monitor conn.now] }) := by
  rcases conn with ⟨store, failures, issued, now, rowsErr⟩
  unfold lookupKey at hkey
  dsimp only at hkey
  cases hfind : store.users.find? (fun u => u.UserID == monitor.UserID) with
  | none => rw [hfind] at hkey; simp at hkey
  | some u =>
    rw [hfind] at hkey
    simp only [Option.map_some', Option.some.injEq] at hkey
    subst hkey
    refine ⟨?_, ?_, ?_⟩
    · intro hcount hok
      rcases failures with _ | ⟨b0, _ | ⟨b1, rest⟩⟩ <;>
        simp [succeeds] at hok <;>
        simp [addUserMonitor, Conn.queryApiKey, Conn.send, Conn.queryMonitorExists, hfind, hu,
          hok, hcount, StatusConflict]
    · intro hcount hmc hok
      dsimp only at hcount hmc
      have hmc' : ¬ (store.monitor.filter fun m => m.APIKey == u.APIKey).length < 3 := by omega
      rcases failures with _ | ⟨b0, _ | ⟨b1, _ | ⟨b2, rest⟩⟩⟩ <;>
        simp [succeeds] at hok <;>
        simp [addUserMonitor, Conn.queryApiKey, Conn.send, Conn.queryMonitorExists,
          Conn.queryMonitorCount, hfind, hu, hok, hcount, hmc, StatusBadRequest]
    · intro hcount hmc hok
      dsimp only at hcount hmc
      have hmc' : ¬ 3 ≤ (store.monitor.filter fun m => m.APIKey == u.APIKey).length := by omega
      rcases failures with _ | ⟨b0, _ | ⟨b1, _ | ⟨b2, _ | ⟨b3, rest⟩⟩⟩⟩ <;>
        simp [succeeds] at hok <;>
        simp [addUserMonitor, Conn.queryApiKey, Conn.send, Conn.queryMonitorExists,
          Conn.queryMonitorCount, Conn.insertMonitor, hfind, hu, hok, hcount, hmc', hmc,
          StatusCreated, newTarget]

theorem pair_filter_nil (l : List MonitorRow) (k u : String)
    (h : ∀ m ∈ l, m.APIKey = k → m.URL ≠ u) :
    (l.filter fun m => m.APIKey == k && m.URL == u) = [] := by
  rw [List.filter_eq_nil_iff]
  intro m hm
  simp only [Bool.and_eq_true, beq_iff_eq, not_and]
  exact h m hm

theorem pair_count (l : List MonitorRow) (k u : String)
    (hn : (l.map fun m => (m.APIKey, m.URL)).Nodup)
    (hm : ∃ m ∈ l, m.APIKey = k ∧ m.URL = u) :
    (l.filter fun m => m.APIKey == k && m.URL == u).length = 1 := by
  induction l with
  | nil => simp at hm
  | cons a l ih =>
    rw [List.map_cons, List.nodup_cons] at hn
    by_cases ha : a.APIKey = k ∧ a.URL = u
    · have hrest : (l.filter fun m => m.APIKey == k && m.URL == u) = [] := by
        apply pair_filter_nil
        intro m hml hk hu
        apply hn.1
        rw [List.mem_map]
        exact ⟨m, hml, by rw [hk, hu, ha.1, ha.2]⟩
      rw [List.filter_cons_of_pos (by simp [ha.1, ha.2]), hrest]
      rfl
    · rw [List.filter_cons_of_neg (by simpa using ha)]
      apply ih hn.2
      obtain ⟨m, hml, hk⟩ := hm
      rcases List.mem_cons.mp hml with hma | hml
      · rw [hma] at hk; exact absurd hk ha
      · exact ⟨m, hml, hk⟩

theorem cap_of_filter (l : List MonitorRow) (p : MonitorRow → Bool)
    (h : ∀ k : String, (l.filter fun m => m.APIKey == k).length ≤ 3) :
    ∀ k : String, ((l.filter p).filter fun m => m.APIKey == k).length ≤ 3 := by
  intro k
  have hsub : ((l.filter p).filter fun m => m.APIKey == k).Sublist
      (l.filter fun m => m.APIKey == k) := (List.filter_sublist l).filter _
  exact le_trans hsub.length_le (h k)

theorem unique_of_filter (l : List MonitorRow) (p : MonitorRow → Bool)
    (h : (l.map fun m => (m.APIKey, m.URL)).Nodup) :
    ((l.filter p).map fun m => (m.APIKey, m.URL)).Nodup :=
  h.sublist ((List.filter_sublist l).map _)

/-- The monitor table after a call of `deleteUserMonitor` is a selection of
the rows it held. -/
theorem deleteUserMonitor_monitor (body : Except String DeleteMonitorBody) (c : Context)
    (conn : Conn) :
    ∃ p : MonitorRow → Bool,
      (deleteUserMonitor body c conn).2.store.monitor = conn.store.monitor.filter p := by
  have hall : ∀ l : List MonitorRow, l = l.filter fun _ => true := fun l => by simp
  unfold deleteUserMonitor
  cases body with
  | error e => exact ⟨_, hall _⟩
  | ok body =>
    dsimp only
    by_cases hu : body.UserID = ""
    · rw [if_pos hu]
      exact ⟨_, hall _⟩
    · rw [if_neg hu]
      have h1 := queryApiKey_spec conn body.UserID
      rcases hq1 : conn.queryApiKey body.UserID with ⟨r1, conn1⟩
      rw [hq1] at h1
      dsimp only at h1
      cases r1 with
      | error e => exact ⟨fun _ => true, by dsimp only; rw [h1.1]; exact hall _⟩
      | ok apiKey =>
        dsimp only
        unfold deleteMonitor deletePings
        simp only [Conn.send]
        split <;> rename_i heq1
        · split at heq1
          · simp only [Prod.mk.injEq] at heq1
            refine ⟨fun _ => true, ?_⟩
            rw [← heq1.2.2, h1.1]
            exact hall _
          · simp at heq1
        · split at heq1
          · simp at heq1
          · simp only [Prod.mk.injEq] at heq1
            split <;> rename_i heq2
            · split at heq2
              · simp only [Prod.mk.injEq] at heq2
                refine ⟨fun m => !(m.APIKey == apiKey && m.URL == body.URL), ?_⟩
                rw [← heq2.2.2, ← heq1.2.2, h1.1]
              · simp at heq2
            · split at heq2
              · simp at heq2
              · simp only [Prod.mk.injEq] at heq2
                refine ⟨fun m => !(m.APIKey == apiKey && m.URL == body.URL), ?_⟩
                rw [← heq2.2.2, ← heq1.2.2, h1.1]

theorem MonitorCall.run_invariant (call : MonitorCall) (conn : Conn)
    (hcap : monitorCap conn.store) (huniq : monitorUnique conn.store) :
    monitorCap (call.run conn).store ∧ monitorUnique (call.run conn).store := by
  cases call with
  | delete body =>
    obtain ⟨p, hp⟩ := deleteUserMonitor_monitor body emptyContext conn
    unfold monitorCap monitorUnique MonitorCall.run
    dsimp only
    rw [hp]
    exact ⟨cap_of_filter _ p hcap, unique_of_filter _ p huniq⟩
  | add body =>
    unfold MonitorCall.run
    dsimp only
    rcases addUserMonitor_cases body emptyContext conn with h | h | h
    · rw [h.1]; exact ⟨hcap, huniq⟩
    · rw [h.1]; exact ⟨hcap, huniq⟩
    · obtain ⟨monitor, apiKey, _, _, hcount, hmc, hstore, _⟩ := h
      rw [hstore]
      constructor
      · intro k
        dsimp only
        rw [List.filter_append]
        by_cases hk : apiKey = k
        · subst hk
          simp only [List.length_append, newTarget, List.filter_cons, beq_self_eq_true, if_true,
            List.filter_nil, List.length_singleton]
          omega
        · have hne : (apiKey == k) = false := by simpa using hk
          simp only [List.length_append, newTarget, List.filter_cons, hne, Bool.false_eq_true,
            if_false, List.filter_nil, List.length_nil, Nat.add_zero]
          exact hcap k
      · unfold monitorUnique
        dsimp only
        rw [List.map_append, List.map_singleton, List.nodup_append]
        refine ⟨huniq, List.nodup_singleton _, ?_⟩
        intro x hx hx'
        rw [List.mem_singleton] at hx'
        subst hx'
        obtain ⟨m, hm, hpair⟩ := List.mem_map.mp hx
        simp only [newTarget, Prod.mk.injEq] at hpair
        exact hcount (pair_count _ _ _ huniq ⟨m, hm, hpair.1, hpair.2⟩)

theorem runMonitorCalls_invariant (calls : List MonitorCall) (conn : Conn)
    (hcap : monitorCap conn.store) (huniq : monitorUnique conn.store) :
    monitorCap (runMonitorCalls calls conn).store
      ∧ monitorUnique (runMonitorCalls calls conn).store := by
  induction calls generalizing conn with
  | nil => exact ⟨hcap, huniq⟩
  | cons call calls ih =>
    have h := MonitorCall.run_invariant call conn hcap huniq
    exact ih (call.run conn) h.1 h.2

/-- C14: for a request whose owner resolves to a credential with 3 monitor
targets and whose URL is not among them, `addUserMonitor` answers 400 and
leaves the store as it was, whatever statement fails; when the three
statements it sends succeed the response is the single write 400
"Monitor limit reached.". -/
theorem C14_limit_reached (monitor : Monitor) (conn : Conn) (apiKey : String)
    (hu : monitor.UserID ≠ "")
    (hkey : lookupKey conn.store monitor.UserID = some apiKey)
    (hthree : (conn.store.monitor.filter fun m => m.APIKey == apiKey).length = 3)
    (hnew : ∀ m ∈ conn.store.monitor, m.APIKey = apiKey → m.URL ≠ monitor.URL) :
    (succeeds 3 conn.failures = true →
      (addUserMonitor (.ok monitor) emptyContext conn).1.writes
        = [{ code := 400, body := .h 400 "Monitor limit reached." }])
    ∧ (addUserMonitor (.ok monitor) emptyContext conn).1.status = some 400
    ∧ (addUserMonitor (.ok monitor) emptyContext conn).2.store = conn.store := by
  have hcount : (conn.store.monitor.filter fun m =>
      m.APIKey == apiKey && m.URL == monitor.URL).length = 0 := by
    rw [pair_filter_nil _ _ _ hnew]; rfl
  refine ⟨?_, ?_⟩
  · intro hok
    rw [((addUserMonitor_ok monitor emptyContext conn apiKey hu hkey).2.1 (by omega) (by omega)
      hok).1]
    rfl
  · rcases addUserMonitor_cases (.ok monitor) emptyContext conn with h | h | h
    · obtain ⟨hs, message, hm⟩ := h
      exact ⟨by rw [hm]; rfl, hs⟩
    · obtain ⟨_, _, m', k', hb, hk', hc'⟩ := h
      simp only [Except.ok.injEq] at hb
      subst hb
      rw [hkey] at hk'
      simp only [Option.some.injEq] at hk'
      subst hk'
      omega
    · obtain ⟨m', k', hb, hk', _, hmc, _⟩ := h
      simp only [Except.ok.injEq] at hb
      subst hb
      rw [hkey] at hk'
      simp only [Option.some.injEq] at hk'
      subst hk'
      omega

/-- C14, witness: a fourth URL for the credential with three targets. -/
theorem C14_limit_reached_witness :
    (addUserMonitor (.ok ⟨"u1", "d.example", true, false⟩) emptyContext
        (monitorConn threeTargets [])).1.writes
      = [{ code := 400, body := .h 400 "Monitor limit reached." }] :=
  (C14_limit_reached ⟨"u1", "d.example", true, false⟩ (monitorConn threeTargets []) "k"
    (by decide) (by rfl) (by rfl) (by decide)).1 (by rfl)

/-- C15: for a request whose owner resolves to a credential, (1) a URL
registered for the credential in a table without repeated pairs is answered
with the single write 409 "Monitor already exists." when the two statements
sent succeed, and nothing is inserted whatever fails, however many targets the
credential has; (2) a URL not registered for a credential with fewer than 3
targets is answered with 201 when the four statements succeed, and the monitor
table gains exactly that target. -/
theorem C15_duplicate_and_first_registration (monitor : Monitor) (conn : Conn) (apiKey : String)
    (hu : monitor.UserID ≠ "")
    (hkey : lookupKey conn.store monitor.UserID = some apiKey) :
    ((∃ m ∈ conn.store.monitor, m.APIKey = apiKey ∧ m.URL = monitor.URL) →
      monitorUnique conn.store →
        (succeeds 2 conn.failures = true →
          (addUserMonitor (.ok monitor) emptyContext conn).1.writes
            = [{ code := 409, body := .h 409 "Monitor already exists." }])
        ∧ (addUserMonitor (.ok monitor) emptyContext conn).2.store = conn.store)
    ∧ ((∀ m ∈ conn.store.monitor, m.APIKey = apiKey → m.URL ≠ monitor.URL) →
      (conn.store.monitor.filter fun m => m.APIKey == apiKey).length < 3 →
      succeeds 4 conn.failures = true →
        (addUserMonitor (.ok monitor) emptyContext conn).1.writes
            = [{ code := 201, body := .h 201 "New monitor created successfully." }]
        ∧ (addUserMonitor (.ok monitor) emptyContext conn).2.store
            = { conn.store with monitor := conn.store.monitor ++
                [{ APIKey := apiKey, URL := monitor.URL, Secure := monitor.Secure,
                   Ping := monitor.Ping, CreatedAt := conn.now }] }) := by
  constructor
  · intro hreg huniq
    have hcount := pair_count conn.store.monitor apiKey monitor.URL huniq hreg
    constructor
    · intro hok
      rw [((addUserMonitor_ok monitor emptyContext conn apiKey hu hkey).1 hcount hok).1]
      rfl
    · rcases addUserMonitor_cases (.ok monitor) emptyContext conn with h | h | h
      · exact h.1
      · exact h.1
      · obtain ⟨m', k', hb, hk', hc', _⟩ := h
        simp only [Except.ok.injEq] at hb
        subst hb
        rw [hkey] at hk'
        simp only [Option.some.injEq] at hk'
        subst hk'
        exact absurd hcount hc'
  · intro hnew hmc hok
    have hcount : (conn.store.monitor.filter fun m =>
        m.APIKey == apiKey && m.URL == monitor.URL).length = 0 := by
      rw [pair_filter_nil _ _ _ hnew]; rfl
    have h := (addUserMonitor_ok monitor emptyContext conn apiKey hu hkey).2.2 (by omega) hmc hok
    rw [h.1, h.2]
    exact ⟨rfl, rfl⟩

/-- C15, witness: a registered URL at the cap of three, and a first
registration in an empty table. -/
theorem C15_duplicate_and_first_registration_witness :
    (addUserMonitor (.ok ⟨"u1", "b.example", true, false⟩) emptyContext
        (monitorConn threeTargets [])).1.writes
      = [{ code := 409, body := .h 409 "Monitor already exists." }]
    ∧ (addUserMonitor (.ok ⟨"u1", "a.example", true, false⟩) emptyContext
        (monitorConn [] [])).2.store.monitor
      = [{ APIKey := "k", URL := "a.example", Secure := true, Ping := false, CreatedAt := 5000 }] :=
  ⟨((C15_duplicate_and_first_registration ⟨"u1", "b.example", true, false⟩
      (monitorConn threeTargets []) "k" (by decide) (by rfl)).1
        ⟨⟨"k", "b.example", true, false, 2⟩, by decide, rfl, rfl⟩
        (by unfold monitorUnique; decide)).1 (by rfl),
    congrArg Store.monitor
      ((C15_duplicate_and_first_registration ⟨"u1", "a.example", true, false⟩
        (monitorConn [] []) "k" (by decide) (by rfl)).2 (by decide) (by decide) (by rfl)).2⟩

/-- C16: from a store in which every credential has at most 3 monitor targets
and no (credential, URL) pair occurs twice, every sequence of `addUserMonitor`
and `deleteUserMonitor` calls, with any request bodies and any statement
failures, leaves a store with both properties. -/
theorem C16_monitor_invariant (calls : List MonitorCall) (conn : Conn)
    (hcap : monitorCap conn.store) (huniq : monitorUnique conn.store) :
    monitorCap (runMonitorCalls calls conn).store
      ∧ monitorUnique (runMonitorCalls calls conn).store :=
  runMonitorCalls_invariant calls conn hcap huniq

/-- C16, witness: the sample calls on an empty monitor table, with the fourth
statement scripted to fail. -/
theorem C16_monitor_invariant_witness :
    monitorCap (runMonitorCalls sampleCalls (monitorConn [] [false, false, false, true])).store
      ∧ monitorUnique
          (runMonitorCalls sampleCalls (monitorConn [] [false, false, false, true])).store :=
  C16_monitor_invariant sampleCalls (monitorConn [] [false, false, false, true])
    (by intro k; simp [monitorConn]) (by simp [monitorUnique, monitorConn])

/-! ## Theorems: uptime prober -/

theorem ping_result (client : Client) (now : Time) (domain : String) (secure p : Bool) :
    (ping client now domain secure p).1
      = match client.NewRequest (getMethod p) (getURL domain secure) with
        | some err => (0, 0, some err)
        | none =>
          match client.Do (getMethod p) (getURL domain secure) with
          | (.error err, _) => (0, 0, some err)
          | (.ok statusCode, took) => (statusCode, took, none) := by
  unfold ping
  dsimp only
  split
  · rfl
  · split
    · rfl
    · dsimp only
      rw [Nat.add_sub_cancel_left]

theorem collectPings_fold (client : Client) (monitored : List MonitorRow)
    (acc : List PingsRow) (now : Time) :
    (monitored.foldl (fun (state : List PingsRow × Time) m =>
      let ((status, elapsed, _), now) := ping client state.2 m.URL m.Secure m.Ping
      (state.1 ++ [{
        APIKey := m.APIKey,
        URL := m.URL,
        ResponseTime := Int.ofNat (elapsed / Millisecond),
        Status := status,
        CreatedAt := now }], now)) (acc, now)).1.map
        (fun p => (p.APIKey, p.URL, p.Status, p.ResponseTime))
      = acc.map (fun p => (p.APIKey, p.URL, p.Status, p.ResponseTime))
        ++ monitored.map (fun m =>
            (m.APIKey, m.URL, (ping client 0 m.URL m.Secure m.Ping).1.1,
              Int.ofNat ((ping client 0 m.URL m.Secure m.Ping).1.2.1 / Millisecond))) := by
  induction monitored generalizing acc now with
  | nil => simp
  | cons m ms ih =>
    rw [List.foldl_cons, ih]
    have h : (ping client now m.URL m.Secure m.Ping).1 = (ping client 0 m.URL m.Secure m.Ping).1 := by
      rw [ping_result, ping_result]
    simp only [List.map_append, List.map_cons, List.map_nil, List.append_assoc,
      List.singleton_append, h]

theorem uploadPings_issued (layout : Layout) (pings : List PingsRow) (db : Conn) :
    (uploadPings layout pings db).db.issued
      = db.issued ++ [{ query := uploadPingsQuery layout pings, args := [] }] := by
  unfold uploadPings
  simp only [Conn.send]
  split <;> rfl

theorem deleteOldPings_issued (layout : Layout) (now : Time) (db : Conn) :
    (deleteOldPings layout now db).db.issued
      = db.issued ++ [{ query := deleteOldPingsQuery layout now, args := [] }] := by
  unfold deleteOldPings
  simp only [Conn.send]
  split <;> rfl

/-- C17: the loop of `pingMonitored` collects exactly one ping per target, in
target order, with the target's credential and URL; a probe that returned an
error (from `http.NewRequest` or from `client.Do`) gives status 0 and response
time 0, any other probe the status code and the elapsed milliseconds of its
own response, whatever happened to the probes before it; and the first
statement `pingMonitored` sends is the bulk insert of exactly these pings. -/
theorem C17_one_ping_per_target (monitored : List MonitorRow) (client : Client)
    (layout : Layout) (now : Time) (db : Conn) :
    (collectPings client now monitored).1.length = monitored.length
    ∧ (collectPings client now monitored).1.map
          (fun p => (p.APIKey, p.URL, p.Status, p.ResponseTime))
        = monitored.map (fun m =>
            match client.NewRequest (getMethod m.Ping) (getURL m.URL m.Secure) with
            | some _ => (m.APIKey, m.URL, (0 : Int), (0 : Int))
            | none =>
              match client.Do (getMethod m.Ping) (getURL m.URL m.Secure) with
              | (.error _, _) => (m.APIKey, m.URL, (0 : Int), (0 : Int))
              | (.ok statusCode, took) =>
                (m.APIKey, m.URL, statusCode, Int.ofNat (took / Millisecond)))
    ∧ ∃ rest, (pingMonitored monitored client layout now db).db.issued
        = db.issued
          ++ { query := uploadPingsQuery layout (collectPings client now monitored).1,
               args := [] } :: rest := by
  have hmap : (collectPings client now monitored).1.map
          (fun p => (p.APIKey, p.URL, p.Status, p.ResponseTime))
        = monitored.map (fun m =>
            match client.NewRequest (getMethod m.Ping) (getURL m.URL m.Secure) with
            | some _ => (m.APIKey, m.URL, (0 : Int), (0 : Int))
            | none =>
              match client.Do (getMethod m.Ping) (getURL m.URL m.Secure) with
              | (.error _, _) => (m.APIKey, m.URL, (0 : Int), (0 : Int))
              | (.ok statusCode, took) =>
                (m.APIKey, m.URL, statusCode, Int.ofNat (took / Millisecond))) := by
    have h := collectPings_fold client monitored [] now
    rw [List.map_nil, List.nil_append] at h
    refine Eq.trans h ?_
    apply List.map_congr_left
    intro m _
    rw [ping_result]
    split
    · simp
    · split <;> simp
  refine ⟨?_, hmap, ?_⟩
  · have h := congrArg List.length hmap
    rw [List.length_map, List.length_map] at h
    exact h
  · unfold pingMonitored
    dsimp only
    have hu := uploadPings_issued layout (collectPings client now monitored).1 db
    cases hr : uploadPings layout (collectPings client now monitored).1 db with
    | panicked db1 =>
      rw [hr] at hu
      exact ⟨[], hu⟩
    | finished db1 =>
      rw [hr] at hu
      dsimp only
      refine ⟨[{ query := deleteOldPingsQuery layout (collectPings client now monitored).2,
                 args := [] }], ?_⟩
      rw [deleteOldPings_issued]
      simp only [Run.db] at hu
      rw [hu, List.append_assoc]
      rfl

theorem truncateToSecond_le (t : Time) : truncateToSecond t ≤ t :=
  Nat.div_mul_le_self t Second

theorem lt_truncateToSecond_add (t : Time) : t < truncateToSecond t + Second :=
  Nat.lt_div_mul_add (by decide)

theorem deleteOldPings_ok (layout : Layout) (now : Time) (db : Conn)
    (h : db.failures.headD false = false) :
    deleteOldPings layout now db
      = .finished
          { db with
            store := { db.store with
              pings := db.store.pings.filter (fun p =>
                !decide (p.CreatedAt < truncateToSecond (now - 60 * 24 * Hour))) },
            failures := db.failures.tail,
            issued := db.issued ++ [{ query := deleteOldPingsQuery layout now, args := [] }] } := by
  unfold deleteOldPings
  simp only [Conn.send, h, Bool.false_eq_true, if_false]

theorem uploadPings_ok (layout : Layout) (pings : List PingsRow) (db : Conn)
    (h : db.failures.headD false = false) (hp : pings ≠ []) :
    uploadPings layout pings db
      = .finished
          { db with
            store := { db.store with
              pings := db.store.pings
                ++ pings.map (fun p => { p with CreatedAt := truncateToSecond p.CreatedAt }) },
            failures := db.failures.tail,
            issued := db.issued ++ [{ query := uploadPingsQuery layout pings, args := [] }] } := by
  unfold uploadPings
  have he : pings.isEmpty = false := by
    cases pings with
    | nil => exact absurd rfl hp
    | cons p ps => rfl
  simp only [Conn.send, h, he, Bool.or_self, Bool.false_eq_true, if_false]

/-- C18, counterexample: one second and a half past the sixtieth day, a ping
created at second 1 is older than now minus 60 days and is kept: the statement
names the cutoff by a text of whole seconds. -/
theorem C18_counterexample :
    (pingAt (1 * Second)).CreatedAt < (60 * 24 * Hour + 1500 * Millisecond) - 60 * 24 * Hour
    ∧ (deleteOldPings sampleLayout (60 * 24 * Hour + 1500 * Millisecond)
          (pingsConn [pingAt (1 * Second)] [])).db.issued
        = [{ query := "DELETE FROM pings WHERE created_at < '1';", args := [] }]
    ∧ (deleteOldPings sampleLayout (60 * 24 * Hour + 1500 * Millisecond)
          (pingsConn [pingAt (1 * Second)] [])).db.store.pings
        = [pingAt (1 * Second)] := by
  refine ⟨by decide, by rfl, by rfl⟩

/-- C18, amended: after `deleteOldPings` run at `now` with its statement
succeeding, the pings kept are exactly those created at or after the cutoff
`now` minus 60 x 24 hours cut to the whole second: none earlier than the cut
cutoff remains (so none a full second older than `now` minus 60 days), and every
ping at or after `now` minus 60 days is kept; in `pingMonitored`, for at least
one target and both statements succeeding, the bulk insert is sent first and
the deletion second, applied to the table that already holds the new pings. -/
theorem C18_retention_to_the_second (layout : Layout) (now : Time) (db : Conn)
    (h : db.failures.headD false = false) :
    (∃ db', deleteOldPings layout now db = .finished db'
      ∧ db'.store.pings = db.store.pings.filter (fun p =>
          decide (truncateToSecond (now - 60 * 24 * Hour) ≤ p.CreatedAt))
      ∧ (∀ p ∈ db'.store.pings, truncateToSecond (now - 60 * 24 * Hour) ≤ p.CreatedAt)
      ∧ (∀ p ∈ db'.store.pings, now - 60 * 24 * Hour < p.CreatedAt + Second)
      ∧ (∀ p ∈ db.store.pings, now - 60 * 24 * Hour ≤ p.CreatedAt → p ∈ db'.store.pings))
    ∧ ∀ (monitored : List MonitorRow) (client : Client), monitored ≠ [] →
        db.failures.tail.headD false = false →
        ∃ db', pingMonitored monitored client layout now db = .finished db'
          ∧ db'.issued = db.issued
              ++ [{ query := uploadPingsQuery layout (collectPings client now monitored).1,
                    args := [] },
                  { query := deleteOldPingsQuery layout (collectPings client now monitored).2,
                    args := [] }]
          ∧ db'.store.pings
              = (db.store.pings ++ (collectPings client now monitored).1.map
                  (fun p : PingsRow => { p with CreatedAt := truncateToSecond p.CreatedAt })).filter
                  (fun p => decide (truncateToSecond
                    ((collectPings client now monitored).2 - 60 * 24 * Hour) ≤ p.CreatedAt)) := by
  have hfilter : ∀ (cut : Time) (l : List PingsRow),
      l.filter (fun p => !decide (p.CreatedAt < cut))
        = l.filter (fun p => decide (cut ≤ p.CreatedAt)) := by
    intro cut l
    congr 1
    funext p
    by_cases hc : cut ≤ p.CreatedAt
    · have hn : ¬ p.CreatedAt < cut := Nat.not_lt.mpr hc
      simp [hc, hn]
    · have hn : p.CreatedAt < cut := Nat.lt_of_not_le hc
      simp [hc, hn]
  constructor
  · refine ⟨_, deleteOldPings_ok layout now db h, hfilter _ _, ?_, ?_, ?_⟩
    · intro p hp
      dsimp only at hp
      rw [hfilter, List.mem_filter] at hp
      exact of_decide_eq_true hp.2
    · intro p hp
      dsimp only at hp
      rw [hfilter, List.mem_filter] at hp
      have h1 : truncateToSecond (now - 60 * 24 * Hour) ≤ p.CreatedAt := of_decide_eq_true hp.2
      have h2 := lt_truncateToSecond_add (now - 60 * 24 * Hour)
      exact Nat.lt_of_lt_of_le h2 (Nat.add_le_add_right h1 _)
    · intro p hp hge
      dsimp only
      rw [hfilter, List.mem_filter]
      exact ⟨hp, decide_eq_true (Nat.le_trans (truncateToSecond_le _) hge)⟩
  · intro monitored client hne h2
    have hlen : (collectPings client now monitored).1 ≠ [] := by
      intro hnil
      have := (collectPings_fold client monitored [] now)
      have hl := congrArg List.length this
      rw [List.length_map] at hl
      change (collectPings client now monitored).1.length = _ at hl
      rw [hnil] at hl
      simp only [List.length_nil, List.map_nil, List.nil_append, List.length_map] at hl
      exact hne (List.length_eq_zero.mp hl.symm)
    unfold pingMonitored
    dsimp only
    rw [uploadPings_ok layout _ db h hlen]
    dsimp only
    rw [deleteOldPings_ok layout _ _ h2]
    refine ⟨_, rfl, ?_, ?_⟩
    · simp
    · exact hfilter _ _

/-- C18, witness: at the time of the counterexample a ping created at second
2 is kept and one created at second 0 is deleted. -/
theorem C18_retention_to_the_second_witness :
    ∃ db', deleteOldPings sampleLayout (60 * 24 * Hour + 1500 * Millisecond)
          (pingsConn [pingAt 0, pingAt (1 * Second), pingAt (2 * Second)] []) = .finished db'
      ∧ db'.store.pings
          = (pingsConn [pingAt 0, pingAt (1 * Second), pingAt (2 * Second)] []).store.pings.filter
              (fun p => decide (truncateToSecond
                (60 * 24 * Hour + 1500 * Millisecond - 60 * 24 * Hour) ≤ p.CreatedAt)) :=
  match (C18_retention_to_the_second sampleLayout (60 * 24 * Hour + 1500 * Millisecond)
      (pingsConn [pingAt 0, pingAt (1 * Second), pingAt (2 * Second)] []) (by rfl)).1 with
  | ⟨db', h1, h2, _⟩ => ⟨db', h1, h2⟩

/-! ## Theorems: termination of the page loop -/

theorem pageRows_length (store : Store) (apiKey : String) (pageMarker : Time) (pageSize : Nat) :
    (pageRows store apiKey pageMarker pageSize).length ≤ pageSize := by
  unfold pageRows
  rw [List.length_map, List.length_take]
  exact Nat.min_le_left _ _

theorem pageLoop_short (lib : Lib) (pageSize : Nat) (apiKey : String) (fuel : Nat) (conn : Conn)
    (pageMarker : Time) (requests : List (List Value)) (rows : Rows) (conn1 : Conn)
    (hq : conn.queryPage apiKey pageMarker pageSize = (.ok rows, conn1))
    (hlen : rows.length ≤ pageSize) :
    pageLoop lib pageSize pageSize apiKey (fuel + 1) conn pageMarker requests
      = .done (readRows lib pageSize rows requests 0).1 conn1 := by
  have hr := readRows_short lib pageSize rows requests 0 (by omega)
  unfold pageLoop
  rw [hq]
  simp only [hr, Nat.zero_add, hlen, true_or, if_true]

/-- With the cap equal to the page size, an iteration of the page loop whose
page statement succeeds is the last one: it ends with the rows of its page
appended. -/
theorem pageLoop_step (lib : Lib) (pageSize : Nat) (apiKey : String) (fuel : Nat) (conn : Conn)
    (pageMarker : Time) (requests : List (List Value))
    (hf : conn.failures.headD false = false) :
    pageLoop lib pageSize pageSize apiKey (fuel + 1) conn pageMarker requests
      = .done (readRows lib pageSize (pageRows conn.store apiKey pageMarker pageSize)
            requests 0).1
          (conn.send pageQuery
            [Value.string apiKey, Value.time pageMarker, Value.int pageSize]).2 := by
  apply pageLoop_short
  · unfold Conn.queryPage pageRows
    simp only [Conn.send, hf, Bool.false_eq_true, if_false]
  · exact pageRows_length _ _ _ _

/-- With the cap equal to the page size, an iteration of the page loop whose
page statement fails is the last one as well: it ends with the query error
when `conn.Query` returns the failure, and normally, with the rows delivered
before the failure appended, when the failure is held by `rows.Err()`. -/
theorem pageLoop_step_failed (lib : Lib) (pageSize : Nat) (apiKey : String) (fuel : Nat)
    (conn : Conn) (pageMarker : Time) (requests : List (List Value))
    (hf : conn.failures.headD false = true) :
    (conn.rowsErr.headD none = none ∧
      pageLoop lib pageSize pageSize apiKey (fuel + 1) conn pageMarker requests
        = .queryError (conn.queryPage apiKey pageMarker pageSize).2)
    ∨ (∃ k, conn.rowsErr.headD none = some k ∧
      pageLoop lib pageSize pageSize apiKey (fuel + 1) conn pageMarker requests
        = .done (readRows lib pageSize
              ((pageRows conn.store apiKey pageMarker pageSize).take k) requests 0).1
            (conn.queryPage apiKey pageMarker pageSize).2) := by
  cases hk : conn.rowsErr.headD none with
  | none =>
    refine Or.inl ⟨rfl, ?_⟩
    have hq : (conn.queryPage apiKey pageMarker pageSize).1 = .error "query failed" := by
      unfold Conn.queryPage
      simp only [Conn.send, hf, hk, if_true]
    unfold pageLoop
    rcases hr : conn.queryPage apiKey pageMarker pageSize with ⟨res, conn1⟩
    rw [hr] at hq
    simp only at hq
    rw [hq]
  | some k =>
    refine Or.inr ⟨k, rfl, ?_⟩
    have hq : (conn.queryPage apiKey pageMarker pageSize).1
        = .ok ((pageRows conn.store apiKey pageMarker pageSize).take k) := by
      unfold Conn.queryPage pageRows
      simp only [Conn.send, hf, hk, if_true]
    apply pageLoop_short
    · rw [← hq]
    · rw [List.length_take]
      have := pageRows_length conn.store apiKey pageMarker pageSize
      omega

/-- With the cap equal to the page size, the first iteration of the page loop
ends the loop, with the query error or normally. -/
theorem pageLoop_ends (lib : Lib) (pageSize : Nat) (apiKey : String) (fuel : Nat) (conn : Conn)
    (pageMarker : Time) (requests : List (List Value)) :
    (∃ conn', pageLoop lib pageSize pageSize apiKey (fuel + 1) conn pageMarker requests
        = .queryError conn')
    ∨ ∃ rows conn', rows.length ≤ pageSize
        ∧ pageLoop lib pageSize pageSize apiKey (fuel + 1) conn pageMarker requests
          = .done (readRows lib pageSize rows requests 0).1 conn' := by
  cases hf : conn.failures.headD false with
  | false =>
    exact Or.inr ⟨_, _, pageRows_length conn.store apiKey pageMarker pageSize,
      pageLoop_step lib pageSize apiKey fuel conn pageMarker requests hf⟩
  | true =>
    rcases pageLoop_step_failed lib pageSize apiKey fuel conn pageMarker requests hf with
      ⟨_, h⟩ | ⟨k, _, h⟩
    · exact Or.inl ⟨_, h⟩
    · refine Or.inr ⟨_, _, ?_, h⟩
      rw [List.length_take]
      have := pageRows_length conn.store apiKey pageMarker pageSize
      omega

theorem readRows_length (lib : Lib) (pageSize : Nat) (rows : Rows)
    (requests : List (List Value)) (h : rows.length ≤ pageSize) :
    (readRows lib pageSize rows requests 0).1.length ≤ requests.length + pageSize := by
  rw [readRows_short lib pageSize rows requests 0 (by omega)]
  simp only [List.length_append, List.length_map]
  have hs : (scanned rows).length ≤ rows.length := by
    unfold scanned
    exact List.length_filterMap_le _ _
  omega

/-- C19: with the cap equal to the page size, as `getUserRequests` sets it,
the page loop ends within its first iteration for every store: it neither
runs out of fuel nor panics. After a page was read the loop has sent exactly
one page statement and sends no other; this is the stated policy, because a
full page (as many rows as the page size) never leaves the running total
below the cap. The rows collected are at most the page size, 500000 for the
constant of the source, and `getUserRequests` always returns. -/
theorem C19_loop_stops_after_first_page (lib : Lib) (pageSize : Nat) (apiKey : String)
    (fuel : Nat) (conn : Conn) (pageMarker : Time) (requests : List (List Value))
    (userID : String) (c : Context) :
    pageLoop lib pageSize pageSize apiKey (fuel + 1) conn pageMarker requests ≠ .outOfFuel
    ∧ (∀ conn', pageLoop lib pageSize pageSize apiKey (fuel + 1) conn pageMarker requests
        ≠ .panicked conn')
    ∧ (conn.failures.headD false = false →
        ∃ requests' conn',
          pageLoop lib pageSize pageSize apiKey (fuel + 1) conn pageMarker requests
            = .done requests' conn'
          ∧ pageQueries conn' = pageQueries conn + 1
          ∧ (pageQueries conn' ≠ pageQueries conn + 1 ↔
              ((pageRows conn.store apiKey pageMarker pageSize).length = pageSize
                ∧ (pageRows conn.store apiKey pageMarker pageSize).length < pageSize))
          ∧ requests'.length ≤ requests.length + pageSize)
    ∧ (∀ requests' conn',
        pageLoop lib 500000 500000 apiKey (fuel + 1) conn 0 [cols] = .done requests' conn' →
          requests'.tail.length ≤ 500000)
    ∧ ∃ c' conn', getUserRequests lib (fuel + 1) pageSize userID c conn = .returned c' conn' := by
  have hends := pageLoop_ends lib pageSize apiKey fuel conn pageMarker requests
  have hq : pageQueries (conn.send pageQuery
      [Value.string apiKey, Value.time pageMarker, Value.int pageSize]).2
        = pageQueries conn + 1 := by
    simp [pageQueries, Conn.send, List.filter_append]
  refine ⟨?_, ?_, ?_, ?_, ?_⟩
  · rcases hends with ⟨conn1, h⟩ | ⟨rows, conn1, _, h⟩ <;> rw [h] <;> simp
  · intro conn'
    rcases hends with ⟨conn1, h⟩ | ⟨rows, conn1, _, h⟩ <;> rw [h] <;> simp
  · intro hf
    rw [pageLoop_step lib pageSize apiKey fuel conn pageMarker requests hf]
    refine ⟨_, _, rfl, hq, ?_, ?_⟩
    · constructor
      · intro hne; exact absurd hq hne
      · intro hfull; omega
    · exact readRows_length lib pageSize _ requests (pageRows_length _ _ _ _)
  · intro requests' conn' hdone
    rcases pageLoop_ends lib 500000 apiKey fuel conn 0 [cols] with
      ⟨conn1, h⟩ | ⟨rows, conn1, hlen, h⟩
    · rw [h] at hdone; simp at hdone
    · rw [h] at hdone
      simp only [PageLoop.done.injEq] at hdone
      have hl := readRows_length lib 500000 rows [cols] hlen
      rw [hdone.1] at hl
      simp only [List.length_singleton] at hl
      rw [List.length_tail]
      omega
  · unfold getUserRequests
    by_cases hu : userID = ""
    · rw [if_pos hu]; exact ⟨_, _, rfl⟩
    · rw [if_neg hu]
      rcases conn.queryApiKey userID with ⟨r, conn1⟩
      cases r with
      | error e => exact ⟨_, _, rfl⟩
      | ok k =>
        dsimp only
        rcases pageLoop_ends lib pageSize k fuel conn1 0 [cols] with
          ⟨conn2, h⟩ | ⟨rows, conn2, _, h⟩
        · rw [h]
          exact ⟨_, _, rfl⟩
        · rw [h]
          dsimp only
          cases compressJSON lib (readRows lib pageSize rows [cols] 0).1 with
          | error e => exact ⟨_, _, rfl⟩
          | ok gz =>
            dsimp only
            split <;> exact ⟨_, _, rfl⟩

/-! ## Theorems: placeholder numbering -/

theorem takeWhile_digits (ds rest : List Char) (hds : ∀ c ∈ ds, digit c = true)
    (hrest : stops rest) : (ds ++ rest).takeWhile digit = ds := by
  induction ds with
  | nil =>
    cases rest with
    | nil => rfl
    | cons c r =>
      have h := hrest c rfl
      simp [List.takeWhile_cons, h]
  | cons d ds ih =>
    have hd := hds d (List.mem_cons_self _ _)
    rw [List.cons_append, List.takeWhile_cons, if_pos hd,
      ih (fun c hc => hds c (List.mem_cons_of_mem _ hc))]

theorem scan_append_of_not_mem (a b : List Char) (h : ∀ c ∈ a, c.toNat ≠ 36) :
    scan (a ++ b) = scan b := by
  induction a with
  | nil => rfl
  | cons c a ih =>
    have hc := h c (List.mem_cons_self _ _)
    rw [List.cons_append, scan, if_neg (fun hh => hc hh.1),
      ih (fun x hx => h x (List.mem_cons_of_mem _ hx))]

theorem digit_ne_dollar (x : Char) (h : digit x = true) : x.toNat ≠ 36 := by
  unfold digit at h
  have := of_decide_eq_true h
  omega

theorem scan_segment (p ds post rest : List Char) (c : Char) (hc : c.toNat = 36)
    (hp : ∀ x ∈ p, x.toNat ≠ 36) (hds : ∀ x ∈ ds, digit x = true) (hne : ds ≠ [])
    (hpost : ∀ x ∈ post, x.toNat ≠ 36) (hstop : stops (post ++ rest)) :
    scan (p ++ [c] ++ ds ++ post ++ rest) = numeral ds :: scan rest := by
  have e : p ++ [c] ++ ds ++ post ++ rest = p ++ (c :: (ds ++ (post ++ rest))) := by
    simp
  have ht := takeWhile_digits ds (post ++ rest) hds hstop
  rw [e, scan_append_of_not_mem p _ hp, scan, ht, if_pos ⟨hc, hne⟩,
    scan_append_of_not_mem ds _ (fun x hx => digit_ne_dollar x (hds x hx)),
    scan_append_of_not_mem post _ hpost]

theorem digitChar_value : ∀ m : Nat, m < 10 → (Nat.digitChar m).toNat - 48 = m := by
  decide

theorem foldl_toDigitsCore (fuel n : Nat) (ds : List Char) (h : n < fuel) :
    (Nat.toDigitsCore 10 fuel n ds).foldl (fun n c => 10 * n + (c.toNat - 48)) 0
      = ds.foldl (fun n c => 10 * n + (c.toNat - 48)) n := by
  induction fuel generalizing n ds with
  | zero => omega
  | succ fuel ih =>
    have hd := digitChar_value (n % 10) (Nat.mod_lt n (by decide))
    unfold Nat.toDigitsCore
    by_cases h0 : n / 10 = 0
    · have hn : n % 10 = n := by omega
      rw [hn] at hd
      simp only [h0, if_true, List.foldl_cons, hd, hn, Nat.mul_zero, Nat.zero_add]
    · have hlt : n / 10 < fuel := by omega
      have hn : 10 * (n / 10) + n % 10 = n := Nat.div_add_mod n 10
      simp only [h0, if_false]
      rw [ih (n / 10) _ hlt, List.foldl_cons, hd, hn]

/-- Reading back the decimal numeral of a number gives the number. -/
theorem numeral_toString (n : Nat) : numeral (toString n).data = n := by
  have h : (toString n).data = Nat.toDigitsCore 10 (n + 1) n [] := rfl
  rw [h]
  unfold numeral
  rw [foldl_toDigitsCore (n + 1) n [] (by omega)]
  rfl

theorem toDigitsCore_ne_nil (fuel n : Nat) (ds : List Char) (h : ds ≠ []) :
    Nat.toDigitsCore 10 fuel n ds ≠ [] := by
  induction fuel generalizing n ds with
  | zero => simpa [Nat.toDigitsCore] using h
  | succ fuel ih =>
    unfold Nat.toDigitsCore
    by_cases h0 : n / 10 = 0
    · simp [h0]
    · simp only [h0, if_false]
      exact ih _ _ (by simp)

theorem toString_ne_nil (n : Nat) : (toString n).data ≠ [] := by
  have h : (toString n).data = Nat.toDigitsCore 10 (n + 1) n [] := rfl
  rw [h]
  unfold Nat.toDigitsCore
  by_cases h0 : n / 10 = 0
  · simp [h0]
  · simp only [h0, if_false]
    exact toDigitsCore_ne_nil _ _ _ (by simp)

theorem toString_digits (n : Nat) : ∀ c ∈ (toString n).data, digit c = true := by
  intro c hc
  unfold digit
  exact decide_eq_true (toString_codes n c hc)

theorem shapeOk_spec (pre post : String) (h : shapeOk pre post = true) :
    (∃ p c, pre.data = p ++ [c] ∧ c.toNat = 36 ∧ ∀ x ∈ p, x.toNat ≠ 36)
    ∧ stops pre.data
    ∧ (∀ x ∈ post.data, x.toNat ≠ 36)
    ∧ stops post.data := by
  unfold shapeOk at h
  simp only [Bool.and_eq_true] at h
  obtain ⟨⟨⟨⟨h1, h2⟩, h3⟩, h4⟩, h5⟩ := h
  refine ⟨?_, ?_, ?_, ?_⟩
  · cases hl : pre.data.getLast? with
    | none => rw [hl] at h1; simp at h1
    | some c =>
      rw [hl] at h1
      refine ⟨pre.data.dropLast, c, (List.dropLast_append_getLast? c hl).symm, ?_, ?_⟩
      · simpa using h1
      · intro x hx
        have := List.all_eq_true.mp h2 x hx
        simpa using this
  · intro x hx
    rw [hx] at h3
    simpa using h3
  · intro x hx
    have := List.all_eq_true.mp h4 x hx
    simpa using this
  · intro x hx
    rw [hx] at h5
    simpa using h5

theorem stops_append (a b : List Char) (ha : stops a) (hb : stops b) : stops (a ++ b) := by
  cases a with
  | nil => simpa using hb
  | cons c a => intro x hx; exact ha x (by simpa using hx)

theorem stops_append_of_ne_nil (a b : List Char) (ha : stops a) (hne : a ≠ []) :
    stops (a ++ b) := by
  cases a with
  | nil => exact absurd rfl hne
  | cons c a => intro x hx; exact ha x (by simpa using hx)

/-- The placeholders of a rendered list of predicates followed by a text that
does not start with a digit are the numbers from `n` upwards, one for each
predicate, followed by those of the text. -/
theorem scan_render (segs : List Segment) (n : Nat) (rest : List Char)
    (hsegs : ∀ s ∈ segs, shapeOk s.pre s.post = true) (hrest : stops rest) :
    scan ((render n segs).data ++ rest) = List.range' n segs.length ++ scan rest
    ∧ stops ((render n segs).data ++ rest) := by
  induction segs generalizing n with
  | nil => exact ⟨by simp [render], by simpa [render] using hrest⟩
  | cons s segs ih =>
    obtain ⟨hscan, hstop⟩ := ih (n + 1) (fun t ht => hsegs t (List.mem_cons_of_mem _ ht))
    obtain ⟨⟨p, c, hpre, hc, hp⟩, hspre, hpost, hspost⟩ :=
      shapeOk_spec s.pre s.post (hsegs s (List.mem_cons_self _ _))
    have e : (render n (s :: segs)).data ++ rest
        = s.pre.data ++ (toString n).data ++ s.post.data ++ ((render (n + 1) segs).data ++ rest) := by
      simp only [render, String.data_append, List.append_assoc]
    have hne : s.pre.data ≠ [] := by rw [hpre]; simp
    constructor
    · rw [e, hpre, scan_segment p (toString n).data s.post.data _ c hc hp (toString_digits n)
        (toString_ne_nil n) hpost (stops_append _ _ hspost hstop), numeral_toString, hscan,
        List.length_cons, List.range'_succ, List.cons_append]
    · rw [e, List.append_assoc, List.append_assoc]
      exact stops_append_of_ne_nil _ _ hspre hne

theorem knownShapes_ok : ∀ p ∈ knownShapes, shapeOk p.1 p.2 = true := by
  decide

theorem selectRequests_head : selectRequests = selectHead ++ toString 1 ++ "" := by
  decide

theorem selectHead_ok : shapeOk selectHead "" = true := by
  decide

theorem filterPredicates_eq_segments (db : Database) (q : DataFetchQueries) :
    filterPredicates db q = segments db q := by
  unfold filterPredicates compiledFilters segments timePredicates equalityPredicates
  simp only [Filter.all, List.filter_cons, List.filter_nil, Filter.compiled]
  cases Filter.accepted db q .date <;> cases Filter.accepted db q .dateFrom <;>
    cases Filter.accepted db q .dateTo <;> cases Filter.accepted db q .ip <;>
    cases Filter.accepted db q .location <;> cases Filter.accepted db q .status <;>
    cases Filter.accepted db q .hostname <;> cases Filter.accepted db q .userID <;> rfl

theorem segments_ok (db : Database) (q : DataFetchQueries) :
    ∀ s ∈ segments db q, shapeOk s.pre s.post = true :=
  fun s hs => knownShapes_ok _ (segments_known db q s hs)

theorem placeholders_statement (segs : List Segment) (apiKey : String)
    (hsegs : ∀ s ∈ segs, shapeOk s.pre s.post = true) :
    placeholders (selectRequests ++ render 2 segs ++ " LIMIT 500000;")
      = List.range' 1 (segs.length + 1) := by
  have hlimit : stops " LIMIT 500000;".data := by
    intro x hx
    have : x = ' ' := by
      have h : " LIMIT 500000;".data.head? = some ' ' := rfl
      rw [h] at hx
      exact (Option.some.inj hx).symm
    rw [this]; rfl
  have hall : ∀ s ∈ (⟨selectHead, Value.string apiKey, ""⟩ : Segment) :: segs,
      shapeOk s.pre s.post = true := by
    intro s hs
    rcases List.mem_cons.mp hs with hs | hs
    · rw [hs]; exact selectHead_ok
    · exact hsegs s hs
  have h := (scan_render _ 1 " LIMIT 500000;".data hall hlimit).1
  have hz : scan " LIMIT 500000;".data = [] := by decide
  have e : (selectRequests ++ render 2 segs ++ " LIMIT 500000;").data
      = (render 1 ((⟨selectHead, Value.string apiKey, ""⟩ : Segment) :: segs)).data
          ++ " LIMIT 500000;".data := by
    rw [render, ← selectRequests_head, String.data_append]
  unfold placeholders
  rw [e, h, hz, List.append_nil, List.length_cons]

theorem placeholders_predicate (s : Segment) (n : Nat) (h : shapeOk s.pre s.post = true) :
    placeholders (s.pre ++ toString n ++ s.post) = [n] := by
  have hs : ∀ t ∈ [s], shapeOk t.pre t.post = true := by
    intro t ht
    rw [List.mem_singleton.mp ht]; exact h
  have hr := (scan_render [s] n [] hs (fun x hx => by simp at hx)).1
  simp only [render, List.append_nil, String.append_empty, List.length_singleton] at hr
  unfold placeholders
  rw [hr]
  rfl

theorem mem_compiledFilters (db : Database) (q : DataFetchQueries) (f : Filter) :
    f ∈ compiledFilters db q ↔
      (Filter.accepted db q f = true ∧
        ((f = .dateFrom ∨ f = .dateTo) → Filter.accepted db q .date = false)) := by
  unfold compiledFilters
  rw [List.mem_filter]
  have hall : f ∈ Filter.all := by cases f <;> decide
  unfold Filter.compiled
  cases f <;> cases Filter.accepted db q .date <;> simp [hall]

theorem mem_filterPredicates (db : Database) (q : DataFetchQueries) (s : Segment)
    (h : s ∈ filterPredicates db q) :
    ∃ f ∈ compiledFilters db q, s ∈ Filter.predicates db q f ∧ s.value = Filter.value db q f := by
  unfold filterPredicates at h
  obtain ⟨f, hf, hs⟩ := List.mem_flatMap.mp h
  refine ⟨f, hf, hs, ?_⟩
  cases f <;> simp only [Filter.predicates, List.mem_cons, List.mem_singleton,
    List.not_mem_nil, or_false] at hs <;>
    first | (subst hs; rfl) | (rcases hs with rfl | rfl <;> rfl)

theorem and_joined : ∀ p ∈ knownShapes, " and ".data.isPrefixOf p.1.data = true := by
  decide

/-- C21: the placeholders of the compiled text are `$1, $2, ..., $n` in order
of appearance, `n` being the length of the argument list; `$1` stands in the
select text and the first argument is the credential; the text after the select
is made of the predicates of the filters taking part (the exact date, or else
the accepted range bounds, then the accepted ip, location, status, hostname and
userID filters, in this fixed order), each starting with ` and `; the predicate
at position `j` holds the single placeholder `$(j+2)`, and the argument this
placeholder denotes (index `j+1`) is the value of the filter the predicate
belongs to. -/
theorem C21_placeholders_numbered_and_bound (db : Database) (apiKey : String)
    (q : DataFetchQueries) :
    placeholders (buildDataFetchQuery db apiKey q).1
        = List.range' 1 (buildDataFetchQuery db apiKey q).2.length
    ∧ placeholders selectRequests = [1]
    ∧ (buildDataFetchQuery db apiKey q).2[0]? = some (Value.string apiKey)
    ∧ (buildDataFetchQuery db apiKey q).1
        = selectRequests ++ render 2 (filterPredicates db q) ++ " LIMIT 500000;"
    ∧ (buildDataFetchQuery db apiKey q).2.length = (filterPredicates db q).length + 1
    ∧ (∀ (j : Nat) (s : Segment), (filterPredicates db q)[j]? = some s →
        placeholders (s.pre ++ toString (j + 2) ++ s.post) = [j + 2]
        ∧ (buildDataFetchQuery db apiKey q).2[j + 1]? = some s.value
        ∧ " and ".data.isPrefixOf s.pre.data = true
        ∧ ∃ f ∈ compiledFilters db q,
            s ∈ Filter.predicates db q f ∧ s.value = Filter.value db q f)
    ∧ List.Sublist (compiledFilters db q) Filter.all
    ∧ (∀ f : Filter, f ∈ compiledFilters db q ↔
        (Filter.accepted db q f = true ∧
          ((f = .dateFrom ∨ f = .dateTo) → Filter.accepted db q .date = false))) := by
  have hok : ∀ s ∈ filterPredicates db q, shapeOk s.pre s.post = true := by
    rw [filterPredicates_eq_segments]; exact segments_ok db q
  have hknown : ∀ s ∈ filterPredicates db q, s.shape ∈ knownShapes := by
    rw [filterPredicates_eq_segments]; exact segments_known db q
  rw [buildDataFetchQuery_eq_render, ← filterPredicates_eq_segments]
  refine ⟨?_, by decide, by simp, rfl, by simp, ?_, List.filter_sublist _,
    mem_compiledFilters db q⟩
  · rw [placeholders_statement _ apiKey hok]
    simp
  · intro j s hj
    have hmem : s ∈ filterPredicates db q := List.mem_iff_getElem?.mpr ⟨j, hj⟩
    refine ⟨placeholders_predicate s (j + 2) (hok s hmem), ?_,
      and_joined _ (hknown s hmem), mem_filterPredicates db q s hmem⟩
    simp only [List.getElem?_cons_succ, List.getElem?_map, hj, Option.map_some']

/-- C21, instance: the statement compiled for a date range, a status and a
userID, its four filter placeholders after `$1`, and its five arguments. -/
theorem C21_placeholders_numbered_and_bound_witness :
    (buildDataFetchQuery sampleDatabase "k" sampleFilters).1
      = "SELECT ip_address, path, hostname, user_agent, method, response_time, status, location, user_id, created_at FROM requests WHERE api_key = $1 and created_at >= $2 and created_at <= $3 and status = $4 and user_id = $5 LIMIT 500000;"
    ∧ (buildDataFetchQuery sampleDatabase "k" sampleFilters).2
      = [Value.string "k", Value.string "day-3", Value.string "day-9", Value.int 200,
          Value.string "u"]
    ∧ placeholders (buildDataFetchQuery sampleDatabase "k" sampleFilters).1
      = List.range' 1 (buildDataFetchQuery sampleDatabase "k" sampleFilters).2.length :=
  ⟨by rfl, by rfl, (C21_placeholders_numbered_and_bound sampleDatabase "k" sampleFilters).1⟩

end ApiAnalytics
